import Mathlib

/-!
Shallow embedding of the CSV normalization/validation pipeline and of the
filter/export view of `src/Inicio.py` (a single-page pandas dashboard for
hydroponic sensor readings).

Modelling choices:
* numeric values are exact rationals; a missing value (pandas NaN) is an
  explicit constructor, not a number;
* a data frame is an ordered list of (label, cells) pairs; duplicate labels
  are representable, because `DataFrame.rename` relabels columns without
  merging them, so two aliases of one canonical name yield duplicate labels;
* every exception that the script can raise is caught by the single
  `except Exception` handler at line 282 and aborts the run, so the pipeline
  is a function into `Except Err Table`; the `Err` constructors record which
  statement raised.
-/

set_option maxHeartbeats 1000000

/-- A non-NaN float value as produced by `read_csv`/`pd.to_numeric`: either
a finite value, modelled as an exact rational, or one of the two infinities
(which the parsers produce from text such as `inf` or `-Infinity`).  NaN is
not a `NumVal`: missingness is explicit at the cell level. -/
inductive NumVal where
  | fin (q : ℚ) : NumVal
  | pinf : NumVal
  | ninf : NumVal
deriving DecidableEq, Repr

/-- A value is finite (not one of the infinities). -/
def NumVal.isFinite : NumVal → Bool
  | .fin _ => true
  | _ => false

/-- The float order on non-NaN values: minus infinity below everything,
plus infinity above everything, finite values by their rational order. -/
def NumVal.le : NumVal → NumVal → Bool
  | .ninf, _ => true
  | _, .pinf => true
  | .fin a, .fin b => decide (a ≤ b)
  | _, _ => false

/-- Minimum of two values, as Python's comparison computes it. -/
def nvMin (a b : NumVal) : NumVal := if NumVal.le a b then a else b

/-- Maximum of two values, as Python's comparison computes it. -/
def nvMax (a b : NumVal) : NumVal := if NumVal.le a b then b else a

/-- Add a finite float to a value (used by the slider widening): an
infinity absorbs the addition. -/
def nvAddQ (v : NumVal) (q : ℚ) : NumVal :=
  match v with
  | .fin a => .fin (a + q)
  | .pinf => .pinf
  | .ninf => .ninf

/-- Subtract a finite float from a value: an infinity absorbs it. -/
def nvSubQ (v : NumVal) (q : ℚ) : NumVal :=
  match v with
  | .fin a => .fin (a - q)
  | .pinf => .pinf
  | .ninf => .ninf

/-- Float addition on an accumulator that may already be NaN (`none`):
opposite infinities produce NaN, and NaN absorbs everything after it. -/
def nvAdd : Option NumVal → NumVal → Option NumVal
  | none, _ => none
  | some (.fin a), .fin b => some (.fin (a + b))
  | some (.fin _), .pinf => some .pinf
  | some (.fin _), .ninf => some .ninf
  | some .pinf, .fin _ => some .pinf
  | some .pinf, .pinf => some .pinf
  | some .pinf, .ninf => none
  | some .ninf, .fin _ => some .ninf
  | some .ninf, .ninf => some .ninf
  | some .ninf, .pinf => none

/-- Float sum of a list of non-NaN values (`none` = the sum is NaN, which
happens exactly when opposite infinities meet). -/
def nvSum (l : List NumVal) : Option NumVal := l.foldl nvAdd (some (.fin 0))

/-- Division of a float by a positive count, for the mean: infinities are
kept. -/
def nvDivNat (v : NumVal) (n : Nat) : NumVal :=
  match v with
  | .fin q => .fin (q / (n : ℚ))
  | .pinf => .pinf
  | .ninf => .ninf

/-- One cell of the uploaded CSV as seen after `read_csv`.
`na` is a blank cell (read as NaN): numeric coercion keeps it NaN and
`to_datetime` turns it into NaT.  `val num time` is a textual cell together
with its two partial interpretations: `num` is the result of numeric
coercion (`none` when the text is not a number, which also makes the whole
column object-typed; infinities are representable since the parsers accept
them), and `time` is the result of datetime parsing (`none` when the text
is not a parseable timestamp, which makes the column-level `to_datetime`
call raise). -/
inductive Cell where
  | na : Cell
  | val (num : Option NumVal) (time : Option ℤ) : Cell
deriving DecidableEq, Repr

/-- Numeric interpretation used by `pd.to_numeric(..., errors='coerce')`
(Inicio.py line 110): blank and non-numeric text both coerce to NaN. -/
def Cell.toNum : Cell → Option NumVal
  | .na => none
  | .val n _ => n

/-- The cell holds a finite numeric value (neither NaN nor an infinity). -/
def Cell.isFiniteNum (c : Cell) : Bool :=
  match c.toNum with
  | some v => v.isFinite
  | none => false

/-- Datetime interpretation used by `pd.to_datetime` (Inicio.py line 104):
a blank cell becomes NaT (`some none`), a parseable cell becomes its
timestamp, and an unparseable cell makes the whole call raise (`none`). -/
def Cell.toTime : Cell → Option (Option ℤ)
  | .na => some none
  | .val _ none => none
  | .val _ (some t) => some (some t)

/-- A cell of non-numeric text.  Such a cell makes its column object-typed,
so `Series.mean` over the raw (uncoerced) column raises a `TypeError`
instead of skipping it. -/
def Cell.isBadText : Cell → Bool
  | .val none _ => true
  | _ => false

/-- The raw data frame produced by `read_csv`: an ordered list of labelled
columns. -/
structure RawFrame where
  cols : List (String × List Cell)
deriving DecidableEq, Repr

/-- The time-indexed table produced by `df.set_index("_time")`
(Inicio.py line 105).  `index` holds the parsed timestamps (`none` = NaT). -/
structure Table where
  index : List (Option ℤ)
  cols : List (String × List Cell)
deriving DecidableEq, Repr

/-- Which statement of the script aborted the run.  `missingTimeColumn` is
the `st.stop()` at line 102; all other constructors are exceptions caught
by the `except Exception` handler at line 282. -/
inductive Err where
  | missingTimeColumn : Err
  | timeParseFailure : Err
  | duplicateLabel (n : String) : Err
  | meanTypeError : Err
  | emptyIloc : Err
deriving DecidableEq, Repr

/-- Decidable equality for pipeline results, used to evaluate the pipeline
on concrete uploads inside proofs. -/
instance {a b : Type} [DecidableEq a] [DecidableEq b] : DecidableEq (Except a b) :=
  fun x y =>
    match x, y with
    | .ok u, .ok v =>
      if h : u = v then isTrue (by rw [h])
      else isFalse (by intro hc; cases hc; exact h rfl)
    | .error u, .error v =>
      if h : u = v then isTrue (by rw [h])
      else isFalse (by intro hc; cases hc; exact h rfl)
    | .ok _, .error _ => isFalse (by intro hc; cases hc)
    | .error _, .ok _ => isFalse (by intro hc; cases hc)

/-- Grafana long column-name pattern (Inicio.py line 73). -/
def GRAFANA_COMPLEX_NAME : String := "\x7bdevice=\"ESP32\", name=\"sensor_data\"\x7d"

/-- The `rename_map` of Inicio.py lines 75-87. -/
def renameMapList : List (String × String) :=
  [("Time", "_time"), ("time", "_time"), ("timeStamp", "_time"), ("result_time", "_time"),
   ("humidity " ++ GRAFANA_COMPLEX_NAME, "humidity"),
   ("temperature " ++ GRAFANA_COMPLEX_NAME, "temperature"),
   ("valve_state " ++ GRAFANA_COMPLEX_NAME, "valve_state"),
   ("humidity ESP32", "humidity"), ("temperature ESP32", "temperature"),
   ("valve_state ESP32", "valve_state"),
   ("humidity", "humidity"), ("temperature", "temperature"), ("valve_state", "valve_state")]

/-- Canonical name of one column label: the label's image under `rename_map`
if it is a key, otherwise the label itself. -/
def applyRename (n : String) : String := (renameMapList.lookup n).getD n

/-- Lines 89-92: `df.rename(columns=columns_to_rename)`.  Every column whose
label is a key of the map is relabelled; data and column count are
untouched; nothing is merged, so two aliases of one canonical name leave
two columns with the same label in the frame. -/
def renameFrame (f : RawFrame) : RawFrame :=
  ⟨f.cols.map (fun p => (applyRename p.1, p.2))⟩

/-- All columns of a raw frame carrying a given label. -/
def RawFrame.colsNamed (f : RawFrame) (n : String) : List (String × List Cell) :=
  f.cols.filter (fun p => p.1 == n)

/-- All columns of a table carrying a given label. -/
def Table.colsNamed (t : Table) (n : String) : List (String × List Cell) :=
  t.cols.filter (fun p => p.1 == n)

/-- Number of rows of the table (the length of its index). -/
def Table.nrows (t : Table) : Nat := t.index.length

/-- Column assignment `df[n] = cs`: replaces the data of every column
labelled `n`, or appends a new column when the label is absent. -/
def Table.setCol (t : Table) (n : String) (cs : List Cell) : Table :=
  if (t.colsNamed n).isEmpty then ⟨t.index, t.cols ++ [(n, cs)]⟩
  else ⟨t.index, t.cols.map (fun p => if p.1 == n then (n, cs) else p)⟩

/-- Data of the first column labelled `n` (empty when the label is absent). -/
def Table.getColD (t : Table) (n : String) : List Cell :=
  match t.colsNamed n with
  | (_, cs) :: _ => cs
  | [] => []

/-- Column-level `pd.to_datetime` (line 104): if any cell is unparseable the
whole call raises; otherwise blanks become NaT and the rest become their
timestamps. -/
def parseTimeCol (cs : List Cell) : Except Err (List (Option ℤ)) :=
  if cs.all (fun c => c.toTime.isSome) then .ok (cs.map (fun c => c.toTime.getD none))
  else .error .timeParseFailure

/-- Lines 100-105 applied to the renamed frame: abort via `st.stop()` when no
column is labelled `_time`; with exactly one such column, parse it and move
it into the index; with several such columns `df["_time"]` is a DataFrame
and `pd.to_datetime` on it raises (it would require year/month/day
component columns). -/
def establishTime (f : RawFrame) : Except Err Table :=
  match f.colsNamed "_time" with
  | [] => .error .missingTimeColumn
  | [(_, cs)] =>
    match parseTimeCol cs with
    | .ok idx => .ok ⟨idx, f.cols.filter (fun p => p.1 != "_time")⟩
    | .error e => .error e
  | _ => .error (.duplicateLabel "_time")

/-- Per-cell result of `pd.to_numeric(..., errors='coerce')`. -/
def coerce1 (c : Cell) : Cell :=
  match c.toNum with
  | some q => .val (some q) none
  | none => .na

/-- A scalar-or-NaN broadcast into one cell. -/
def cellOfOpt : Option NumVal → Cell
  | none => .na
  | some v => .val (some v) none

/--`df["humidity"].mean()` on the raw, still uncoerced column (line 115):
if the column contains non-numeric text it is object-typed and `mean`
raises a `TypeError`; otherwise the mean skips NaN cells and is itself NaN
when no numeric value is present. -/
def rawMean (cs : List Cell) : Except Err (Option NumVal) :=
  if cs.any Cell.isBadText then .error .meanTypeError
  else if (cs.filterMap Cell.toNum).isEmpty then .ok none
  else .ok (match nvSum (cs.filterMap Cell.toNum) with
            | none => none
            | some v => some (nvDivNat v (cs.filterMap Cell.toNum).length))

/-- Line 115-116, the `temperature`-missing branch: fill with the mean of the
raw humidity column when a humidity column exists (a DataFrame of duplicate
humidity labels makes the statement raise), else with 25.0; afterwards the
warning message evaluates `df[col].iloc[0]`, which raises `IndexError` on a
zero-row frame. -/
def tempBackfill (t : Table) : Except Err Table :=
  match (match t.colsNamed "humidity" with
         | [] => Except.ok (some (NumVal.fin 25))
         | [(_, hcs)] => rawMean hcs
         | _ => Except.error (Err.duplicateLabel "humidity")) with
  | .error e => .error e
  | .ok m =>
    if t.nrows = 0 then .error .emptyIloc
    else .ok (t.setCol "temperature" (List.replicate t.nrows (cellOfOpt m)))

/-- One iteration of the loop at lines 108-119 for column name `col`:
a present column is coerced per cell (with several columns of that label,
`pd.to_numeric` receives a DataFrame and raises); an absent column is
backfilled with its default. -/
def processCol (t : Table) (col : String) : Except Err Table :=
  match t.colsNamed col with
  | [] =>
    if col == "valve_state" then
      .ok (t.setCol col (List.replicate t.nrows (Cell.val (some (NumVal.fin 0)) none)))
    else if col == "temperature" then
      tempBackfill t
    else if col == "humidity" then
      .ok (t.setCol col (List.replicate t.nrows (Cell.val (some (NumVal.fin 50)) none)))
    else .ok t
  | [(_, cs)] => .ok (t.setCol col (cs.map coerce1))
  | _ => .error (.duplicateLabel col)

/-- Truncation toward zero, the float-to-int conversion `astype(int)`
applies per value (the numerator divided by the denominator, rounding
toward zero). -/
def truncQ (q : ℚ) : ℤ := q.num.tdiv q.den

/-- Per-cell result of `.fillna(0)` on a coerced column: NaN becomes 0,
every other value is kept. -/
def fillnaZeroCell (c : Cell) : Cell :=
  match c.toNum with
  | none => .val (some (NumVal.fin 0)) none
  | some v => .val (some v) none

/-- Per-cell integer cast used by `astype(int)` once the whole column is
known to be finite: truncation toward zero. -/
def astypeIntCell (c : Cell) : Cell :=
  match c.toNum with
  | none => .val (some (NumVal.fin 0)) none
  | some (.fin q) => .val (some (NumVal.fin ((truncQ q : ℤ) : ℚ))) none
  | some v => .val (some v) none

/-- Column-level `.fillna(0).astype(int, errors='ignore')` (line 121):
`fillna` first replaces every NaN by 0; then `astype(int)` casts the column
to integers only when every value is finite — on a non-finite value it
raises, `errors='ignore'` swallows the error, and the whole column is
returned un-cast, still float-typed. -/
def astypeIntCol (cs : List Cell) : List Cell :=
  if (cs.map fillnaZeroCell).all Cell.isFiniteNum then
    (cs.map fillnaZeroCell).map astypeIntCell
  else cs.map fillnaZeroCell

/-- Line 121: `df["valve_state"] = df["valve_state"].fillna(0).astype(int,
errors='ignore')`.  After the loop the label always exists exactly once. -/
def finalizeValve (t : Table) : Table :=
  match t.colsNamed "valve_state" with
  | [(_, cs)] => t.setCol "valve_state" (astypeIntCol cs)
  | _ => t

/-- The whole normalization/validation pipeline, lines 89-121: rename, time
column establishment, the coercion/backfill loop over
temperature, humidity, valve_state in that order, and the valve_state
finalization.  An `Err` result is a run that showed an error message and
rendered none of the downstream views. -/
def process (f : RawFrame) : Except Err Table :=
  match establishTime (renameFrame f) with
  | .error e => .error e
  | .ok t0 =>
    match processCol t0 "temperature" with
    | .error e => .error e
    | .ok t1 =>
      match processCol t1 "humidity" with
      | .error e => .error e
      | .ok t2 =>
        match processCol t2 "valve_state" with
        | .error e => .error e
        | .ok t3 => .ok (finalizeValve t3)

/-- The numeric values of a column after `dropna()` (line 212); infinities
are not NaN and survive. -/
def dropnaVals (cs : List Cell) : List NumVal := cs.filterMap Cell.toNum

/-- Minimum of a list of values (0 on the empty list, never used there). -/
def qMinList : List NumVal → NumVal
  | [] => .fin 0
  | x :: xs => xs.foldl nvMin x

/-- Maximum of a list of values (0 on the empty list, never used there). -/
def qMaxList : List NumVal → NumVal
  | [] => .fin 0
  | x :: xs => xs.foldl nvMax x

/-- Slider-bound computation of lines 212-229: an all-missing column gets the
default bounds (0, 1); a constant `valve_state` column gets the widened
bounds (-0.1, 1.1); any other constant column is widened by 0.1 on both
sides; otherwise the bounds are the column's min and max. -/
def sliderRange (t : Table) (varName : String) : NumVal × NumVal :=
  let vd := dropnaVals (t.getColD varName)
  if vd.isEmpty then (.fin 0, .fin 1)
  else
    let mn := qMinList vd
    let mx := qMaxList vd
    if mn = mx then
      if varName == "valve_state" then (.fin (-1/10), .fin (11/10))
      else (nvSubQ mx (1/10), nvAddQ mx (1/10))
    else (mn, mx)

/-- Row predicate of the boolean mask `(df[v] >= lo) & (df[v] <= hi)`
(line 234) for a slider-selected finite range: a NaN cell compares false on
both sides and is dropped; an infinity fails one of the two comparisons and
is dropped as well. -/
def keepRow (lo hi : ℚ) (c : Cell) : Bool :=
  match c.toNum with
  | some v => NumVal.le (.fin lo) v && NumVal.le v (.fin hi)
  | none => false

/-- Keep the entries of a list selected by a boolean mask, in order. -/
def maskFilter {α : Type} : List Bool → List α → List α
  | b :: bs, x :: xs => if b then x :: maskFilter bs xs else maskFilter bs xs
  | _, _ => []

/-- Row selection `df[mask]`: the mask is applied to the index and to every
column. -/
def Table.applyMask (t : Table) (m : List Bool) : Table :=
  ⟨maskFilter m t.index, t.cols.map (fun p => (p.1, maskFilter m p.2))⟩

/-- Line 234: `df[(df[v] >= lo) & (df[v] <= hi)].dropna(subset=[v])`. -/
def filtrado (t : Table) (varName : String) (lo hi : ℚ) : Table :=
  let t1 := t.applyMask ((t.getColD varName).map (keepRow lo hi))
  t1.applyMask ((t1.getColD varName).map (fun c => c.toNum.isSome))

/-- Rows of `to_csv` output (line 240): one row per index entry, the index
value first, then the cells of each column in column order. -/
def exportAux : List (Option ℤ) → List (List Cell) → List (Option ℤ × List Cell)
  | [], _ => []
  | i :: is, cols => (i, cols.map (fun c => c.headD .na)) :: exportAux is (cols.map List.tail)

/-- The exported CSV of a table as a list of rows, time index first. -/
def Table.exportRows (t : Table) : List (Option ℤ × List Cell) :=
  exportAux t.index (t.cols.map (fun p => p.2))

/-- Boolean comparison of two index entries (NaT compares true, it only
appears in statements where it is absent). -/
def timeLE (a b : Option ℤ) : Bool :=
  match a, b with
  | some x, some y => decide (x ≤ y)
  | _, _ => true

/-- The index is ascending. -/
def timesSortedB : List (Option ℤ) → Bool
  | a :: b :: rest => timeLE a b && timesSortedB (b :: rest)
  | _ => true

/-- The parsed time column of an upload in its original file order (the
shape the spec claims is additionally sorted). -/
def rawTimeIndex (f : RawFrame) : List (Option ℤ) :=
  match (renameFrame f).colsNamed "_time" with
  | [(_, cs)] => cs.map (fun c => c.toTime.getD none)
  | _ => []

/-- Rectangular table: every column has as many cells as the index. -/
def Table.rectB (t : Table) : Bool :=
  t.cols.all (fun p => p.2.length == t.index.length)

/-- A cell of timestamp text (not numeric). -/
def tcell (k : ℤ) : Cell := .val none (some k)

/-- A cell of finite numeric text. -/
def ncell (q : ℚ) : Cell := .val (some (NumVal.fin q)) none

/-- A cell of text such as `inf` that numeric coercion parses as positive
infinity while datetime parsing rejects it. -/
def infcell : Cell := .val (some NumVal.pinf) none

/-- A cell of text that neither parses as a number nor as a timestamp. -/
def badcell : Cell := .val none none

/-- Claim C1 input: well-formed upload whose rows are out of time order. -/
def fC1 : RawFrame :=
  ⟨[("Time", [tcell 2, tcell 1]),
    ("temperature", [ncell 20, ncell 21]),
    ("humidity", [ncell 30, ncell 31]),
    ("valve_state", [ncell 0, ncell 1])]⟩

/-- Claim C2 input: two distinct headers that both alias to `_time`, every
timestamp parseable. -/
def fC2 : RawFrame :=
  ⟨[("Time", [tcell 1]), ("time", [tcell 2]),
    ("temperature", [ncell 20]), ("humidity", [ncell 30]), ("valve_state", [ncell 0])]⟩

/-- Claim C3 input: temperature column absent, humidity present but holding
no numeric value (one blank cell). -/
def fC3 : RawFrame :=
  ⟨[("_time", [tcell 1]), ("humidity", [Cell.na]), ("valve_state", [ncell 0])]⟩

/-- Claim C3 witness input: all three value columns absent. -/
def fC3w : RawFrame := ⟨[("_time", [tcell 1, tcell 2])]⟩

/-- Claim C4 input: all columns present, one unparseable temperature cell,
one blank humidity cell, one blank valve cell. -/
def fC4 : RawFrame :=
  ⟨[("_time", [tcell 1, tcell 2]),
    ("temperature", [ncell 20, badcell]),
    ("humidity", [Cell.na, ncell 31]),
    ("valve_state", [ncell 0, Cell.na])]⟩

/-- Claim C5 input: temperature absent and humidity present with one cell of
non-numeric text. -/
def fC5 : RawFrame :=
  ⟨[("_time", [tcell 1]), ("humidity", [badcell]), ("valve_state", [ncell 1])]⟩

/-- Claim C5 witness input: temperature present with an unparseable cell. -/
def fC5w : RawFrame :=
  ⟨[("_time", [tcell 1, tcell 2]),
    ("temperature", [badcell, ncell 21]),
    ("humidity", [ncell 30, ncell 31]),
    ("valve_state", [ncell 0, ncell 1])]⟩

/-- Claim C6 input: well-formed upload whose rows are out of time order. -/
def fC6 : RawFrame :=
  ⟨[("Time", [tcell 2, tcell 1]),
    ("temperature", [ncell 20, ncell 21]),
    ("humidity", [ncell 30, ncell 31]),
    ("valve_state", [ncell 1, ncell 0])]⟩

/-- Claim C7 input: fully well-formed upload. -/
def fC7 : RawFrame :=
  ⟨[("_time", [tcell 1, tcell 2]),
    ("temperature", [ncell 20, ncell 21]),
    ("humidity", [ncell 30, ncell 31]),
    ("valve_state", [ncell 0, ncell 1])]⟩

/-- Claim C8 input: two distinct original columns aliasing to `_time`. -/
def fC8 : RawFrame := ⟨[("Time", [tcell 1]), ("time", [tcell 2])]⟩

/-- Claim C9 input: valve_state constant at 5 (coercion does not clamp). -/
def fC9 : RawFrame :=
  ⟨[("_time", [tcell 1, tcell 2]),
    ("temperature", [ncell 20, ncell 21]),
    ("humidity", [ncell 30, ncell 31]),
    ("valve_state", [ncell 5, ncell 5])]⟩

/-- Claim C9 witness input: valve_state constant at 0. -/
def fC9w : RawFrame :=
  ⟨[("_time", [tcell 1, tcell 2]),
    ("temperature", [ncell 20, ncell 21]),
    ("humidity", [ncell 30, ncell 31]),
    ("valve_state", [ncell 0, ncell 0])]⟩

/-- Claim C10 input: humidity present but all cells blank. -/
def fC10 : RawFrame :=
  ⟨[("_time", [tcell 1, tcell 2]),
    ("temperature", [ncell 20, ncell 21]),
    ("humidity", [Cell.na, Cell.na]),
    ("valve_state", [ncell 0, ncell 1])]⟩

/-- Result of processing fC1 (rows remain in original, unsorted order). -/
def tC1 : Table :=
  ⟨[some 2, some 1],
   [("temperature", [ncell 20, ncell 21]),
    ("humidity", [ncell 30, ncell 31]),
    ("valve_state", [ncell 0, ncell 1])]⟩

/-- Claim C2 witness input: no column resolves to the time column. -/
def fC2w : RawFrame := ⟨[("humidity", [ncell 30])]⟩

/-- Result of processing fC3 (temperature backfilled with NaN, the mean of
an all-blank humidity column). -/
def tC3 : Table :=
  ⟨[some 1],
   [("humidity", [Cell.na]), ("valve_state", [ncell 0]), ("temperature", [Cell.na])]⟩

/-- Result of processing fC3w (all three value columns backfilled). -/
def tC3w : Table :=
  ⟨[some 1, some 2],
   [("temperature", [ncell 25, ncell 25]),
    ("humidity", [ncell 50, ncell 50]),
    ("valve_state", [ncell 0, ncell 0])]⟩

/-- Result of processing fC4. -/
def tC4 : Table :=
  ⟨[some 1, some 2],
   [("temperature", [ncell 20, Cell.na]),
    ("humidity", [Cell.na, ncell 31]),
    ("valve_state", [ncell 0, ncell 0])]⟩

/-- Claim C4 counterexample input: the valve_state column holds a cell of
infinity text. -/
def fC4x : RawFrame :=
  ⟨[("_time", [tcell 1]),
    ("temperature", [ncell 20]),
    ("humidity", [ncell 30]),
    ("valve_state", [infcell])]⟩

/-- Result of processing fC4x: the astype at line 121 fails on the
non-finite value and is ignored, so valve_state keeps the float infinity. -/
def tC4x : Table :=
  ⟨[some 1],
   [("temperature", [ncell 20]),
    ("humidity", [ncell 30]),
    ("valve_state", [Cell.val (some NumVal.pinf) none])]⟩

/-- Result of processing fC5w (the unparseable temperature cell degraded to
NaN, nothing aborted). -/
def tC5w : Table :=
  ⟨[some 1, some 2],
   [("temperature", [Cell.na, ncell 21]),
    ("humidity", [ncell 30, ncell 31]),
    ("valve_state", [ncell 0, ncell 1])]⟩

/-- Result of processing fC6 (unsorted). -/
def tC6 : Table :=
  ⟨[some 2, some 1],
   [("temperature", [ncell 20, ncell 21]),
    ("humidity", [ncell 30, ncell 31]),
    ("valve_state", [ncell 1, ncell 0])]⟩

/-- Claim C6 witness input: a well-formed, time-ascending upload. -/
def fC6w : RawFrame :=
  ⟨[("_time", [tcell 1, tcell 2]),
    ("temperature", [ncell 20, ncell 21]),
    ("humidity", [ncell 30, ncell 31]),
    ("valve_state", [ncell 0, ncell 1])]⟩

/-- Result of processing fC6w. -/
def tC6w : Table :=
  ⟨[some 1, some 2],
   [("temperature", [ncell 20, ncell 21]),
    ("humidity", [ncell 30, ncell 31]),
    ("valve_state", [ncell 0, ncell 1])]⟩

/-- Result of processing fC7. -/
def tC7 : Table :=
  ⟨[some 1, some 2],
   [("temperature", [ncell 20, ncell 21]),
    ("humidity", [ncell 30, ncell 31]),
    ("valve_state", [ncell 0, ncell 1])]⟩

/-- Result of processing fC9 (valve constant at 5; no clamp to 0/1). -/
def tC9 : Table :=
  ⟨[some 1, some 2],
   [("temperature", [ncell 20, ncell 21]),
    ("humidity", [ncell 30, ncell 31]),
    ("valve_state", [ncell 5, ncell 5])]⟩

/-- Result of processing fC9w (valve constant at 0). -/
def tC9w : Table :=
  ⟨[some 1, some 2],
   [("temperature", [ncell 20, ncell 21]),
    ("humidity", [ncell 30, ncell 31]),
    ("valve_state", [ncell 0, ncell 0])]⟩

/-- Result of processing fC10 (humidity entirely NaN). -/
def tC10 : Table :=
  ⟨[some 1, some 2],
   [("temperature", [ncell 20, ncell 21]),
    ("humidity", [Cell.na, Cell.na]),
    ("valve_state", [ncell 0, ncell 1])]⟩

/-- Everything a successful run of the pipeline guarantees about the
resulting table, relative to the renamed upload. -/
structure RunSpec (f : RawFrame) (t : Table) : Prop where
  time_col : ∃ nm tcs, (renameFrame f).colsNamed "_time" = [(nm, tcs)] ∧
    (tcs.all fun c => c.toTime.isSome) = true ∧
    t.index = tcs.map (fun c => c.toTime.getD none)
  no_time_col : t.colsNamed "_time" = []
  temp_single : ∃ cs, t.colsNamed "temperature" = [("temperature", cs)]
  hum_single : ∃ cs, t.colsNamed "humidity" = [("humidity", cs)]
  valve_single : ∃ cs, t.colsNamed "valve_state" = [("valve_state", cs)]
  temp_present : ∀ nm cs, (renameFrame f).colsNamed "temperature" = [(nm, cs)] →
    t.colsNamed "temperature" = [("temperature", cs.map coerce1)]
  hum_present : ∀ nm cs, (renameFrame f).colsNamed "humidity" = [(nm, cs)] →
    t.colsNamed "humidity" = [("humidity", cs.map coerce1)]
  valve_present : ∀ nm cs, (renameFrame f).colsNamed "valve_state" = [(nm, cs)] →
    t.colsNamed "valve_state" = [("valve_state", astypeIntCol cs)]
  temp_absent : (renameFrame f).colsNamed "temperature" = [] →
    0 < t.nrows ∧
    (((renameFrame f).colsNamed "humidity" = [] ∧
        t.colsNamed "temperature" =
          [("temperature", List.replicate t.nrows (Cell.val (some (NumVal.fin 25)) none))]) ∨
     (∃ nm hcs m, (renameFrame f).colsNamed "humidity" = [(nm, hcs)] ∧
        rawMean hcs = .ok m ∧
        t.colsNamed "temperature" =
          [("temperature", List.replicate t.nrows (cellOfOpt m))]))
  hum_absent : (renameFrame f).colsNamed "humidity" = [] →
    t.colsNamed "humidity" =
      [("humidity", List.replicate t.nrows (Cell.val (some (NumVal.fin 50)) none))]
  valve_absent : (renameFrame f).colsNamed "valve_state" = [] →
    t.colsNamed "valve_state" =
      [("valve_state", List.replicate t.nrows (Cell.val (some (NumVal.fin 0)) none))]
  temp_cells : ∀ c ∈ t.getColD "temperature",
    c = Cell.na ∨ ∃ q, c = Cell.val (some q) none
  hum_cells : ∀ c ∈ t.getColD "humidity",
    c = Cell.na ∨ ∃ q, c = Cell.val (some q) none
  valve_no_nan : ∀ c ∈ t.getColD "valve_state",
    ∃ v, c = Cell.val (some v) none
  valve_int_of_finite : (∀ c ∈ t.getColD "valve_state", c.isFiniteNum = true) →
    ∀ c ∈ t.getColD "valve_state", ∃ k : ℤ, c = Cell.val (some (NumVal.fin (k : ℚ))) none

theorem mem_colsNamed_name {t : Table} {n : String} {p : String × List Cell}
    (hp : p ∈ t.colsNamed n) : p.1 = n := by
  have h := List.mem_filter.mp hp
  exact eq_of_beq h.2

theorem setCol_index (t : Table) (n : String) (cs : List Cell) :
    (t.setCol n cs).index = t.index := by
  unfold Table.setCol
  split <;> rfl

theorem filter_map_self (l : List (String × List Cell)) (n : String) (cs : List Cell) :
    (l.map (fun p => if p.1 == n then (n, cs) else p)).filter (fun p => p.1 == n)
      = (l.filter (fun p => p.1 == n)).map (fun _ => (n, cs)) := by
  induction l with
  | nil => rfl
  | cons p rest ih =>
    by_cases hp : p.1 = n
    · simp [List.filter_cons, hp]
      simpa using ih
    · simp [List.filter_cons, hp]
      simpa using ih

theorem filter_map_other (l : List (String × List Cell)) (n m : String) (cs : List Cell)
    (hnm : m ≠ n) :
    (l.map (fun p => if p.1 == n then (n, cs) else p)).filter (fun p => p.1 == m)
      = l.filter (fun p => p.1 == m) := by
  induction l with
  | nil => rfl
  | cons p rest ih =>
    by_cases hp : p.1 = n
    · have h1 : p.1 ≠ m := fun h => hnm (hp ▸ h.symm)
      have h2 : n ≠ m := fun h => hnm h.symm
      simp [List.filter_cons, hp, h1, h2]
      simpa using ih
    · by_cases hm : p.1 = m
      · simp [List.filter_cons, hp, hm, hnm]
        simpa using ih
      · simp [List.filter_cons, hp, hm]
        simpa using ih

theorem setCol_colsNamed_self_nil {t : Table} {n : String} (cs : List Cell)
    (h : t.colsNamed n = []) :
    (t.setCol n cs).colsNamed n = [(n, cs)] := by
  unfold Table.setCol
  rw [h]
  simp only [List.isEmpty_nil, if_true]
  show (t.cols ++ [(n, cs)]).filter (fun p => p.1 == n) = [(n, cs)]
  rw [List.filter_append]
  have h0 : t.cols.filter (fun p => p.1 == n) = [] := h
  rw [h0]
  simp

theorem setCol_colsNamed_self_single {t : Table} {n : String} {q : String × List Cell}
    (cs : List Cell) (h : t.colsNamed n = [q]) :
    (t.setCol n cs).colsNamed n = [(n, cs)] := by
  unfold Table.setCol
  rw [h]
  simp only [List.isEmpty_cons, if_false]
  show (t.cols.map (fun p => if p.1 == n then (n, cs) else p)).filter (fun p => p.1 == n)
      = [(n, cs)]
  rw [filter_map_self]
  have h0 : t.cols.filter (fun p => p.1 == n) = [q] := h
  rw [h0]
  rfl

theorem setCol_colsNamed_other {t : Table} {n m : String} (cs : List Cell) (hnm : m ≠ n) :
    (t.setCol n cs).colsNamed m = t.colsNamed m := by
  unfold Table.setCol
  split
  · show (t.cols ++ [(n, cs)]).filter (fun p => p.1 == m) = _
    rw [List.filter_append]
    have h1 : ([(n, cs)] : List (String × List Cell)).filter (fun p => p.1 == m) = [] := by
      simp only [List.filter_cons, List.filter_nil]
      have h2 : (n == m) = false := by simp; exact fun h => hnm h.symm
      rw [h2]
      rfl
    rw [h1, List.append_nil]
    rfl
  · exact filter_map_other _ _ _ _ hnm

theorem getColD_of_single {t : Table} {n nm : String} {cs : List Cell}
    (h : t.colsNamed n = [(nm, cs)]) : t.getColD n = cs := by
  unfold Table.getColD
  rw [h]

theorem colsNamed_mk_eq (idx : List (Option ℤ)) (cols : List (String × List Cell)) (n : String) :
    Table.colsNamed ⟨idx, cols⟩ n = cols.filter (fun p => p.1 == n) := rfl

theorem filter_ne_time_colsNamed (l : List (String × List Cell)) (idx : List (Option ℤ))
    (m : String) (hm : m ≠ "_time") :
    Table.colsNamed ⟨idx, l.filter (fun p => p.1 != "_time")⟩ m = l.filter (fun p => p.1 == m) := by
  rw [colsNamed_mk_eq]
  rw [List.filter_filter]
  apply List.filter_congr
  intro p _
  by_cases hp : p.1 = m
  · simp [hp, hm]
  · simp [hp]

theorem colsNamed_time_of_filter_ne (l : List (String × List Cell)) (idx : List (Option ℤ)) :
    Table.colsNamed ⟨idx, l.filter (fun p => p.1 != "_time")⟩ "_time" = [] := by
  rw [colsNamed_mk_eq, List.filter_filter]
  have h : ∀ p ∈ l, (p.1 == "_time" && p.1 != "_time") = false := by
    intro p _
    by_cases hp : p.1 = "_time" <;> simp [hp]
  calc l.filter (fun p => p.1 == "_time" && p.1 != "_time")
      = l.filter (fun _ => false) := List.filter_congr h
    _ = [] := List.filter_false l

theorem establishTime_ok_elim {f : RawFrame} {t0 : Table} (h : establishTime f = .ok t0) :
    ∃ nm cs, f.colsNamed "_time" = [(nm, cs)] ∧
      (cs.all fun c => c.toTime.isSome) = true ∧
      t0 = ⟨cs.map (fun c => c.toTime.getD none), f.cols.filter (fun p => p.1 != "_time")⟩ := by
  unfold establishTime at h
  split at h
  · cases h
  · rename_i nm cs heq
    unfold parseTimeCol at h
    by_cases hall : (cs.all fun c => c.toTime.isSome) = true
    · rw [if_pos hall] at h
      cases h
      exact ⟨nm, cs, heq, hall, rfl⟩
    · rw [if_neg hall] at h
      cases h
  · cases h

theorem parseTimeCol_err_elim {cs : List Cell} {e : Err} (h : parseTimeCol cs = .error e) :
    e = .timeParseFailure := by
  unfold parseTimeCol at h
  by_cases hall : (cs.all fun c => c.toTime.isSome) = true
  · rw [if_pos hall] at h
    cases h
  · rw [if_neg hall] at h
    injection h with h2
    exact h2.symm

theorem establishTime_err_elim {f : RawFrame} {e : Err} (h : establishTime f = .error e) :
    e = .missingTimeColumn ∨ e = .timeParseFailure ∨ e = .duplicateLabel "_time" := by
  unfold establishTime at h
  split at h
  · injection h with h2
    exact Or.inl h2.symm
  · rename_i nm cs heq
    cases hp : parseTimeCol cs with
    | ok idx =>
      rw [hp] at h
      cases h
    | error e2 =>
      rw [hp] at h
      injection h with h2
      exact Or.inr (Or.inl (h2 ▸ parseTimeCol_err_elim hp))
  · injection h with h2
    exact Or.inr (Or.inr h2.symm)

theorem processCol_present {t : Table} {col nm : String} {cs : List Cell}
    (h : t.colsNamed col = [(nm, cs)]) :
    processCol t col = .ok (t.setCol col (cs.map coerce1)) := by
  unfold processCol
  rw [h]

theorem processValve_ok_elim {t t' : Table} (h : processCol t "valve_state" = .ok t') :
    (∃ nm cs, t.colsNamed "valve_state" = [(nm, cs)] ∧
       t' = t.setCol "valve_state" (cs.map coerce1))
    ∨ (t.colsNamed "valve_state" = [] ∧
       t' = t.setCol "valve_state" (List.replicate t.nrows (Cell.val (some (NumVal.fin 0)) none))) := by
  unfold processCol at h
  split at h
  · rename_i heq
    rw [if_pos (by decide)] at h
    cases h
    exact Or.inr ⟨heq, rfl⟩
  · rename_i nm cs heq
    cases h
    exact Or.inl ⟨nm, cs, heq, rfl⟩
  · cases h

theorem processHum_ok_elim {t t' : Table} (h : processCol t "humidity" = .ok t') :
    (∃ nm cs, t.colsNamed "humidity" = [(nm, cs)] ∧
       t' = t.setCol "humidity" (cs.map coerce1))
    ∨ (t.colsNamed "humidity" = [] ∧
       t' = t.setCol "humidity" (List.replicate t.nrows (Cell.val (some (NumVal.fin 50)) none))) := by
  unfold processCol at h
  split at h
  · rename_i heq
    rw [if_neg (by decide), if_neg (by decide), if_pos (by decide)] at h
    cases h
    exact Or.inr ⟨heq, rfl⟩
  · rename_i nm cs heq
    cases h
    exact Or.inl ⟨nm, cs, heq, rfl⟩
  · cases h

theorem tempBackfill_ok_elim {t t' : Table} (h : tempBackfill t = .ok t') :
    0 < t.nrows ∧ ∃ m : Option NumVal,
      ((t.colsNamed "humidity" = [] ∧ m = some (NumVal.fin 25)) ∨
       (∃ nm hcs, t.colsNamed "humidity" = [(nm, hcs)] ∧ rawMean hcs = .ok m)) ∧
      t' = t.setCol "temperature" (List.replicate t.nrows (cellOfOpt m)) := by
  unfold tempBackfill at h
  split at h
  · cases h
  · rename_i m hm
    by_cases hz : t.nrows = 0
    · rw [if_pos hz] at h
      cases h
    · rw [if_neg hz] at h
      cases h
      refine ⟨Nat.pos_of_ne_zero hz, m, ?_, rfl⟩
      split at hm
      · rename_i hhe
        injection hm with hm2
        exact Or.inl ⟨hhe, hm2.symm⟩
      · rename_i nm hcs hhe
        exact Or.inr ⟨nm, hcs, hhe, hm⟩
      · cases hm

theorem processTemp_ok_elim {t t' : Table} (h : processCol t "temperature" = .ok t') :
    (∃ nm cs, t.colsNamed "temperature" = [(nm, cs)] ∧
       t' = t.setCol "temperature" (cs.map coerce1))
    ∨ (t.colsNamed "temperature" = [] ∧ 0 < t.nrows ∧ ∃ m : Option NumVal,
        ((t.colsNamed "humidity" = [] ∧ m = some (NumVal.fin 25)) ∨
         (∃ nm hcs, t.colsNamed "humidity" = [(nm, hcs)] ∧ rawMean hcs = .ok m)) ∧
        t' = t.setCol "temperature" (List.replicate t.nrows (cellOfOpt m))) := by
  unfold processCol at h
  split at h
  · rename_i heq
    rw [if_neg (by decide), if_pos (by decide)] at h
    obtain ⟨hz, m, hm, ht⟩ := tempBackfill_ok_elim h
    exact Or.inr ⟨heq, hz, m, hm, ht⟩
  · rename_i nm cs heq
    cases h
    exact Or.inl ⟨nm, cs, heq, rfl⟩
  · cases h

theorem rawMean_err_elim {cs : List Cell} {e : Err} (h : rawMean cs = .error e) :
    e = .meanTypeError := by
  unfold rawMean at h
  by_cases hb : (cs.any Cell.isBadText) = true
  · rw [if_pos hb] at h
    injection h with h2
    exact h2.symm
  · rw [if_neg hb] at h
    split at h
    · cases h
    · cases h

theorem rawMean_bad {cs : List Cell} (h : cs.any Cell.isBadText = true) :
    rawMean cs = .error .meanTypeError := by
  unfold rawMean
  rw [if_pos h]

theorem tempBackfill_err_elim {t : Table} {e : Err} (h : tempBackfill t = .error e) :
    e = .duplicateLabel "humidity" ∨ e = .meanTypeError ∨ e = .emptyIloc := by
  unfold tempBackfill at h
  split at h
  · rename_i e2 hm
    injection h with h2
    split at hm
    · cases hm
    · exact h2 ▸ Or.inr (Or.inl (rawMean_err_elim hm))
    · injection hm with hm2
      exact h2 ▸ Or.inl hm2.symm
  · by_cases hz : t.nrows = 0
    · rw [if_pos hz] at h
      injection h with h2
      exact Or.inr (Or.inr h2.symm)
    · rw [if_neg hz] at h
      cases h

theorem processCol_err_elim {t : Table} {col : String} {e : Err}
    (h : processCol t col = .error e) :
    e = .duplicateLabel col ∨ (col = "temperature" ∧ tempBackfill t = .error e) := by
  unfold processCol at h
  split at h
  · by_cases h1 : (col == "valve_state") = true
    · rw [if_pos h1] at h
      cases h
    · rw [if_neg h1] at h
      by_cases h2 : (col == "temperature") = true
      · rw [if_pos h2] at h
        exact Or.inr ⟨eq_of_beq h2, h⟩
      · rw [if_neg h2] at h
        by_cases h3 : (col == "humidity") = true
        · rw [if_pos h3] at h
          cases h
        · rw [if_neg h3] at h
          cases h
  · cases h
  · injection h with h2
    exact Or.inl h2.symm

theorem processTemp_absent {t : Table} (he : t.colsNamed "temperature" = []) :
    processCol t "temperature" = tempBackfill t := by
  unfold processCol
  rw [he, if_neg (by decide), if_pos (by decide)]

theorem tempBackfill_err_of_badhum {t : Table} {nm : String} {hcs : List Cell}
    (hh : t.colsNamed "humidity" = [(nm, hcs)]) (hb : hcs.any Cell.isBadText = true) :
    tempBackfill t = .error .meanTypeError := by
  unfold tempBackfill
  rw [hh]
  show (match rawMean hcs with
        | .error e => Except.error e
        | .ok m =>
          if t.nrows = 0 then Except.error Err.emptyIloc
          else Except.ok (t.setCol "temperature" (List.replicate t.nrows (cellOfOpt m))))
      = Except.error Err.meanTypeError
  rw [rawMean_bad hb]

theorem process_err_of_establish {f : RawFrame} {e : Err}
    (h : establishTime (renameFrame f) = .error e) : process f = .error e := by
  unfold process
  rw [h]

theorem process_ok_stages {f : RawFrame} {t : Table} (h : process f = .ok t) :
    ∃ t0 t1 t2 t3,
      establishTime (renameFrame f) = .ok t0 ∧
      processCol t0 "temperature" = .ok t1 ∧
      processCol t1 "humidity" = .ok t2 ∧
      processCol t2 "valve_state" = .ok t3 ∧
      t = finalizeValve t3 := by
  unfold process at h
  split at h
  · cases h
  · rename_i t0 h0
    split at h
    · cases h
    · rename_i t1 h1
      split at h
      · cases h
      · rename_i t2 h2
        split at h
        · cases h
        · rename_i t3 h3
          injection h with h4
          exact ⟨t0, t1, t2, t3, h0, h1, h2, h3, h4.symm⟩

theorem process_err_stages {f : RawFrame} {e : Err} (h : process f = .error e) :
    establishTime (renameFrame f) = .error e ∨
    ∃ t0, establishTime (renameFrame f) = .ok t0 ∧
      (processCol t0 "temperature" = .error e ∨
       ∃ t1, processCol t0 "temperature" = .ok t1 ∧
         (processCol t1 "humidity" = .error e ∨
          ∃ t2, processCol t1 "humidity" = .ok t2 ∧
            processCol t2 "valve_state" = .error e)) := by
  unfold process at h
  split at h
  · rename_i e2 h0
    injection h with h4
    rw [h4] at h0
    exact Or.inl h0
  · rename_i t0 h0
    split at h
    · rename_i e2 h1
      injection h with h4
      rw [h4] at h1
      exact Or.inr ⟨t0, h0, Or.inl h1⟩
    · rename_i t1 h1
      split at h
      · rename_i e2 h2
        injection h with h4
        rw [h4] at h2
        exact Or.inr ⟨t0, h0, Or.inr ⟨t1, h1, Or.inl h2⟩⟩
      · rename_i t2 h2
        split at h
        · rename_i e2 h3
          injection h with h4
          rw [h4] at h3
          exact Or.inr ⟨t0, h0, Or.inr ⟨t1, h1, Or.inr ⟨t2, h2, h3⟩⟩⟩
        · cases h

theorem finalizeValve_of_single {t : Table} {nm : String} {cs : List Cell}
    (h : t.colsNamed "valve_state" = [(nm, cs)]) :
    finalizeValve t = t.setCol "valve_state" (astypeIntCol cs) := by
  unfold finalizeValve
  rw [h]

theorem finalizeValve_index (t : Table) : (finalizeValve t).index = t.index := by
  unfold finalizeValve
  split
  · rw [setCol_index]
  · rfl

theorem fillnaZeroCell_coerce1 (c : Cell) : fillnaZeroCell (coerce1 c) = fillnaZeroCell c := by
  cases c with
  | na => rfl
  | val n t => cases n <;> rfl

theorem astypeIntCol_coerce1 (cs : List Cell) :
    astypeIntCol (cs.map coerce1) = astypeIntCol cs := by
  unfold astypeIntCol
  have hmap : (cs.map coerce1).map fillnaZeroCell = cs.map fillnaZeroCell := by
    rw [List.map_map]
    apply List.map_congr_left
    intro c _
    exact fillnaZeroCell_coerce1 c
  rw [hmap]

theorem coerce1_shape (c : Cell) :
    coerce1 c = Cell.na ∨ ∃ q, coerce1 c = Cell.val (some q) none := by
  cases c with
  | na => exact Or.inl rfl
  | val n t =>
    cases n with
    | none => exact Or.inl rfl
    | some q => exact Or.inr ⟨q, rfl⟩

theorem cellOfOpt_shape (m : Option NumVal) :
    cellOfOpt m = Cell.na ∨ ∃ q, cellOfOpt m = Cell.val (some q) none := by
  cases m with
  | none => exact Or.inl rfl
  | some q => exact Or.inr ⟨q, rfl⟩

theorem astypeIntCell_shape (c : Cell) :
    ∃ v, astypeIntCell c = Cell.val (some v) none := by
  cases c with
  | na => exact ⟨NumVal.fin 0, rfl⟩
  | val n t =>
    cases n with
    | none => exact ⟨NumVal.fin 0, rfl⟩
    | some v =>
      cases v with
      | fin q => exact ⟨NumVal.fin ((truncQ q : ℤ) : ℚ), rfl⟩
      | pinf => exact ⟨NumVal.pinf, rfl⟩
      | ninf => exact ⟨NumVal.ninf, rfl⟩

theorem astypeIntCell_int_of_finite (c : Cell) (h : c.isFiniteNum = true) :
    ∃ k : ℤ, astypeIntCell c = Cell.val (some (NumVal.fin (k : ℚ))) none := by
  cases c with
  | na => cases h
  | val n t =>
    cases n with
    | none => cases h
    | some v =>
      cases v with
      | fin q => exact ⟨truncQ q, rfl⟩
      | pinf => cases h
      | ninf => cases h

theorem fillnaZeroCell_shape (c : Cell) :
    ∃ v, fillnaZeroCell c = Cell.val (some v) none := by
  cases c with
  | na => exact ⟨NumVal.fin 0, rfl⟩
  | val n t =>
    cases n with
    | none => exact ⟨NumVal.fin 0, rfl⟩
    | some v => exact ⟨v, rfl⟩

theorem astypeIntCol_shape (cs : List Cell) :
    ∀ c ∈ astypeIntCol cs, ∃ v, c = Cell.val (some v) none := by
  intro c hc
  unfold astypeIntCol at hc
  split at hc
  · obtain ⟨c0, hc0mem, hc0⟩ := List.mem_map.mp hc
    obtain ⟨v, hv⟩ := astypeIntCell_shape c0
    exact ⟨v, by rw [← hc0, hv]⟩
  · obtain ⟨c0, hc0mem, hc0⟩ := List.mem_map.mp hc
    obtain ⟨v, hv⟩ := fillnaZeroCell_shape c0
    exact ⟨v, by rw [← hc0, hv]⟩

theorem astypeIntCol_int_of_finite (cs : List Cell)
    (h : ∀ c ∈ astypeIntCol cs, c.isFiniteNum = true) :
    ∀ c ∈ astypeIntCol cs, ∃ k : ℤ, c = Cell.val (some (NumVal.fin (k : ℚ))) none := by
  by_cases hall : ((cs.map fillnaZeroCell).all Cell.isFiniteNum) = true
  · have heq : astypeIntCol cs = (cs.map fillnaZeroCell).map astypeIntCell := by
      unfold astypeIntCol
      rw [if_pos hall]
    intro c hc
    rw [heq] at hc
    obtain ⟨c0, hc0mem, hc0⟩ := List.mem_map.mp hc
    obtain ⟨k, hk⟩ := astypeIntCell_int_of_finite c0 (List.all_eq_true.mp hall c0 hc0mem)
    exact ⟨k, by rw [← hc0, hk]⟩
  · have heq : astypeIntCol cs = cs.map fillnaZeroCell := by
      unfold astypeIntCol
      rw [if_neg hall]
    intro c hc
    exfalso
    apply hall
    apply List.all_eq_true.mpr
    intro c2 hc2
    apply h
    rw [heq]
    exact hc2

theorem astypeIntCol_replicate_zero (n : Nat) :
    astypeIntCol (List.replicate n (Cell.val (some (NumVal.fin 0)) none))
      = List.replicate n (Cell.val (some (NumVal.fin 0)) none) := by
  unfold astypeIntCol
  rw [List.map_replicate]
  have hz : fillnaZeroCell (Cell.val (some (NumVal.fin 0)) none)
      = Cell.val (some (NumVal.fin 0)) none := rfl
  rw [hz]
  rw [if_pos (List.all_eq_true.mpr (fun c hc => by rw [List.eq_of_mem_replicate hc]; rfl))]
  rw [List.map_replicate]
  rw [show astypeIntCell (Cell.val (some (NumVal.fin 0)) none)
      = Cell.val (some (NumVal.fin 0)) none by decide]

theorem process_ok_spec {f : RawFrame} {t : Table} (h : process f = .ok t) : RunSpec f t := by
  obtain ⟨t0, t1, t2, t3, h0, h1, h2, h3, ht⟩ := process_ok_stages h
  obtain ⟨nm0, tcs, htime, hall, ht0⟩ := establishTime_ok_elim h0
  have hT0idx : t0.index = tcs.map (fun c => c.toTime.getD none) := by rw [ht0]
  have hT0time : t0.colsNamed "_time" = [] := by
    rw [ht0]
    exact colsNamed_time_of_filter_ne _ _
  have hT0other : ∀ m, m ≠ "_time" → t0.colsNamed m = (renameFrame f).colsNamed m := by
    intro m hm
    rw [ht0]
    exact filter_ne_time_colsNamed _ _ m hm
  have step1 : ∃ X1, t1 = t0.setCol "temperature" X1 ∧
      t1.colsNamed "temperature" = [("temperature", X1)] ∧
      ((∃ nm cs, t0.colsNamed "temperature" = [(nm, cs)] ∧ X1 = cs.map coerce1) ∨
       (t0.colsNamed "temperature" = [] ∧ 0 < t0.nrows ∧ ∃ m : Option NumVal,
          ((t0.colsNamed "humidity" = [] ∧ m = some (NumVal.fin 25)) ∨
           (∃ nm hcs, t0.colsNamed "humidity" = [(nm, hcs)] ∧ rawMean hcs = .ok m)) ∧
          X1 = List.replicate t0.nrows (cellOfOpt m))) := by
    rcases processTemp_ok_elim h1 with ⟨nmT, csT, hT, ht1⟩ | ⟨hTnil, hpos, m, hm, ht1⟩
    · exact ⟨csT.map coerce1, ht1,
        by rw [ht1]; exact setCol_colsNamed_self_single _ hT,
        Or.inl ⟨nmT, csT, hT, rfl⟩⟩
    · exact ⟨_, ht1,
        by rw [ht1]; exact setCol_colsNamed_self_nil _ hTnil,
        Or.inr ⟨hTnil, hpos, m, hm, rfl⟩⟩
  obtain ⟨X1, e1, c1, d1⟩ := step1
  have i1 : t1.index = t0.index := by rw [e1]; exact setCol_index _ _ _
  have o1 : ∀ m, m ≠ "temperature" → t1.colsNamed m = t0.colsNamed m := by
    intro m hm
    rw [e1]
    exact setCol_colsNamed_other _ hm
  have step2 : ∃ X2, t2 = t1.setCol "humidity" X2 ∧
      t2.colsNamed "humidity" = [("humidity", X2)] ∧
      ((∃ nm cs, t1.colsNamed "humidity" = [(nm, cs)] ∧ X2 = cs.map coerce1) ∨
       (t1.colsNamed "humidity" = [] ∧
        X2 = List.replicate t1.nrows (Cell.val (some (NumVal.fin 50)) none))) := by
    rcases processHum_ok_elim h2 with ⟨nmH, csH, hH, ht2⟩ | ⟨hHnil, ht2⟩
    · exact ⟨csH.map coerce1, ht2,
        by rw [ht2]; exact setCol_colsNamed_self_single _ hH,
        Or.inl ⟨nmH, csH, hH, rfl⟩⟩
    · exact ⟨_, ht2,
        by rw [ht2]; exact setCol_colsNamed_self_nil _ hHnil,
        Or.inr ⟨hHnil, rfl⟩⟩
  obtain ⟨X2, e2, c2, d2⟩ := step2
  have i2 : t2.index = t1.index := by rw [e2]; exact setCol_index _ _ _
  have o2 : ∀ m, m ≠ "humidity" → t2.colsNamed m = t1.colsNamed m := by
    intro m hm
    rw [e2]
    exact setCol_colsNamed_other _ hm
  have step3 : ∃ X3, t3 = t2.setCol "valve_state" X3 ∧
      t3.colsNamed "valve_state" = [("valve_state", X3)] ∧
      ((∃ nm cs, t2.colsNamed "valve_state" = [(nm, cs)] ∧ X3 = cs.map coerce1) ∨
       (t2.colsNamed "valve_state" = [] ∧
        X3 = List.replicate t2.nrows (Cell.val (some (NumVal.fin 0)) none))) := by
    rcases processValve_ok_elim h3 with ⟨nmV, csV, hV, ht3⟩ | ⟨hVnil, ht3⟩
    · exact ⟨csV.map coerce1, ht3,
        by rw [ht3]; exact setCol_colsNamed_self_single _ hV,
        Or.inl ⟨nmV, csV, hV, rfl⟩⟩
    · exact ⟨_, ht3,
        by rw [ht3]; exact setCol_colsNamed_self_nil _ hVnil,
        Or.inr ⟨hVnil, rfl⟩⟩
  obtain ⟨X3, e3, c3, d3⟩ := step3
  have i3 : t3.index = t2.index := by rw [e3]; exact setCol_index _ _ _
  have o3 : ∀ m, m ≠ "valve_state" → t3.colsNamed m = t2.colsNamed m := by
    intro m hm
    rw [e3]
    exact setCol_colsNamed_other _ hm
  have efin : t = t3.setCol "valve_state" (astypeIntCol X3) := by
    rw [ht]
    exact finalizeValve_of_single c3
  have cfin : t.colsNamed "valve_state" = [("valve_state", astypeIntCol X3)] := by
    rw [efin]
    exact setCol_colsNamed_self_single _ c3
  have ifin : t.index = t3.index := by rw [efin]; exact setCol_index _ _ _
  have ofin : ∀ m, m ≠ "valve_state" → t.colsNamed m = t3.colsNamed m := by
    intro m hm
    rw [efin]
    exact setCol_colsNamed_other _ hm
  have idxAll : t.index = t0.index := by rw [ifin, i3, i2, i1]
  have nrowsAll : t.nrows = t0.nrows := by unfold Table.nrows; rw [idxAll]
  have nrT1 : t1.nrows = t.nrows := by unfold Table.nrows; rw [ifin, i3, i2]
  have nrT2 : t2.nrows = t.nrows := by unfold Table.nrows; rw [ifin, i3]
  have ctemp : t.colsNamed "temperature" = [("temperature", X1)] := by
    rw [ofin _ (by decide), o3 _ (by decide), o2 _ (by decide)]
    exact c1
  have chum : t.colsNamed "humidity" = [("humidity", X2)] := by
    rw [ofin _ (by decide), o3 _ (by decide)]
    exact c2
  refine ⟨?_, ?_, ?_, ?_, ?_, ?_, ?_, ?_, ?_, ?_, ?_, ?_, ?_, ?_, ?_⟩
  · exact ⟨nm0, tcs, htime, hall, by rw [idxAll, hT0idx]⟩
  · rw [ofin _ (by decide), o3 _ (by decide), o2 _ (by decide), o1 _ (by decide)]
    exact hT0time
  · exact ⟨X1, ctemp⟩
  · exact ⟨X2, chum⟩
  · exact ⟨astypeIntCol X3, cfin⟩
  · intro nm cs hg
    rcases d1 with ⟨nm2, cs2, hT, hX⟩ | ⟨hTnil, _⟩
    · rw [hT0other "temperature" (by decide), hg] at hT
      injection hT with hpair hnil
      injection hpair with hname hdata
      rw [ctemp, hX, hdata]
    · rw [hT0other "temperature" (by decide), hg] at hTnil
      cases hTnil
  · intro nm cs hg
    rcases d2 with ⟨nm2, cs2, hH, hX⟩ | ⟨hHnil, _⟩
    · rw [o1 "humidity" (by decide), hT0other "humidity" (by decide), hg] at hH
      injection hH with hpair hnil
      injection hpair with hname hdata
      rw [chum, hX, hdata]
    · rw [o1 "humidity" (by decide), hT0other "humidity" (by decide), hg] at hHnil
      cases hHnil
  · intro nm cs hg
    rcases d3 with ⟨nm2, cs2, hV, hX⟩ | ⟨hVnil, _⟩
    · rw [o2 "valve_state" (by decide), o1 "valve_state" (by decide),
        hT0other "valve_state" (by decide), hg] at hV
      injection hV with hpair hnil
      injection hpair with hname hdata
      rw [cfin, hX, hdata, astypeIntCol_coerce1]
    · rw [o2 "valve_state" (by decide), o1 "valve_state" (by decide),
        hT0other "valve_state" (by decide), hg] at hVnil
      cases hVnil
  · intro hg
    rcases d1 with ⟨nm2, cs2, hT, hX⟩ | ⟨hTnil, hpos, m, hm, hX⟩
    · rw [hT0other "temperature" (by decide), hg] at hT
      cases hT
    · refine ⟨by rw [nrowsAll]; exact hpos, ?_⟩
      rcases hm with ⟨hHnil, hm25⟩ | ⟨nm3, hcs, hH, hrm⟩
      · left
        constructor
        · rw [← hT0other "humidity" (by decide)]
          exact hHnil
        · rw [ctemp, hX, hm25, nrowsAll]
          rfl
      · right
        refine ⟨nm3, hcs, m, ?_, hrm, ?_⟩
        · rw [← hT0other "humidity" (by decide)]
          exact hH
        · rw [ctemp, hX, nrowsAll]
  · intro hg
    rcases d2 with ⟨nm2, cs2, hH, hX⟩ | ⟨hHnil, hX⟩
    · rw [o1 "humidity" (by decide), hT0other "humidity" (by decide), hg] at hH
      cases hH
    · rw [chum, hX]
      unfold Table.nrows
      rw [i1, ← idxAll]
  · intro hg
    rcases d3 with ⟨nm2, cs2, hV, hX⟩ | ⟨hVnil, hX⟩
    · rw [o2 "valve_state" (by decide), o1 "valve_state" (by decide),
        hT0other "valve_state" (by decide), hg] at hV
      cases hV
    · rw [cfin, hX, astypeIntCol_replicate_zero]
      unfold Table.nrows
      rw [i2, i1, ← idxAll]
  · intro c hc
    rw [getColD_of_single ctemp] at hc
    rcases d1 with ⟨nm2, cs2, hT, hX⟩ | ⟨hTnil, hpos, m, hm, hX⟩
    · rw [hX] at hc
      obtain ⟨c0, _, hc0⟩ := List.mem_map.mp hc
      rw [← hc0]
      exact coerce1_shape c0
    · rw [hX] at hc
      rw [List.eq_of_mem_replicate hc]
      exact cellOfOpt_shape m
  · intro c hc
    rw [getColD_of_single chum] at hc
    rcases d2 with ⟨nm2, cs2, hH, hX⟩ | ⟨hHnil, hX⟩
    · rw [hX] at hc
      obtain ⟨c0, _, hc0⟩ := List.mem_map.mp hc
      rw [← hc0]
      exact coerce1_shape c0
    · rw [hX] at hc
      rw [List.eq_of_mem_replicate hc]
      exact Or.inr ⟨NumVal.fin 50, rfl⟩
  · intro c hc
    rw [getColD_of_single cfin] at hc
    exact astypeIntCol_shape X3 c hc
  · intro hfin c hc
    rw [getColD_of_single cfin] at hc
    refine astypeIntCol_int_of_finite X3 ?_ c hc
    intro c2 hc2
    apply hfin
    rw [getColD_of_single cfin]
    exact hc2

theorem maskFilter_nil_right {α : Type} (m : List Bool) : maskFilter m ([] : List α) = [] := by
  cases m <;> rfl

theorem maskFilter_nil_mask {α : Type} (xs : List α) : maskFilter [] xs = [] := rfl

theorem maskFilter_all_false {α : Type} {m : List Bool} (hm : ∀ b ∈ m, b = false) :
    ∀ xs : List α, maskFilter m xs = [] := by
  induction m with
  | nil =>
    intro xs
    rfl
  | cons b bs ih =>
    intro xs
    cases xs with
    | nil => rfl
    | cons x xs2 =>
      have hb : b = false := hm b (List.mem_cons_self _ _)
      rw [hb]
      show maskFilter bs xs2 = []
      exact ih (fun c hc => hm c (List.mem_cons_of_mem _ hc)) xs2

theorem maskFilter_all_true {α : Type} {m : List Bool} (hm : ∀ b ∈ m, b = true) :
    ∀ xs : List α, xs.length = m.length → maskFilter m xs = xs := by
  induction m with
  | nil =>
    intro xs h
    cases xs with
    | nil => rfl
    | cons x xs2 => simp at h
  | cons b bs ih =>
    intro xs h
    cases xs with
    | nil => simp at h
    | cons x xs2 =>
      have hb : b = true := hm b (List.mem_cons_self _ _)
      have h2 : xs2.length = bs.length := by simpa using h
      rw [hb]
      show x :: maskFilter bs xs2 = x :: xs2
      rw [ih (fun c hc => hm c (List.mem_cons_of_mem _ hc)) xs2 h2]

theorem maskFilter_length_eq {α β : Type} (m : List Bool) :
    ∀ (xs : List α) (ys : List β), xs.length = ys.length →
      (maskFilter m xs).length = (maskFilter m ys).length := by
  induction m with
  | nil =>
    intro xs ys h
    rfl
  | cons b bs ih =>
    intro xs ys h
    cases xs with
    | nil =>
      cases ys with
      | nil => rfl
      | cons y ys2 => simp at h
    | cons x xs2 =>
      cases ys with
      | nil => simp at h
      | cons y ys2 =>
        have h2 : xs2.length = ys2.length := by simpa using h
        cases b
        · show (maskFilter bs xs2).length = (maskFilter bs ys2).length
          exact ih xs2 ys2 h2
        · show (x :: maskFilter bs xs2).length = (y :: maskFilter bs ys2).length
          simp [ih xs2 ys2 h2]

theorem mem_maskFilter_self {α : Type} (p : α → Bool) :
    ∀ (xs : List α) (x : α), x ∈ maskFilter (xs.map p) xs → p x = true := by
  intro xs
  induction xs with
  | nil =>
    intro x hx
    cases hx
  | cons a as ih =>
    intro x hx
    rw [List.map_cons] at hx
    by_cases hp : p a = true
    · rw [hp] at hx
      have hx2 : x = a ∨ x ∈ maskFilter (as.map p) as := by
        have : x ∈ a :: maskFilter (as.map p) as := hx
        simpa using this
      rcases hx2 with h | h
      · rw [h]
        exact hp
      · exact ih x h
    · have hb : p a = false := by
        revert hp
        cases p a <;> simp
      rw [hb] at hx
      have hx2 : x ∈ maskFilter (as.map p) as := hx
      exact ih x hx2

theorem exportAux_fst (idx : List (Option ℤ)) :
    ∀ cols : List (List Cell), (exportAux idx cols).map Prod.fst = idx := by
  induction idx with
  | nil =>
    intro cols
    rfl
  | cons i is ih =>
    intro cols
    simp [exportAux, ih]

theorem exportAux_mask (m : List Bool) :
    ∀ (idx : List (Option ℤ)) (cols : List (List Cell)),
      idx.length = m.length → (∀ c ∈ cols, c.length = m.length) →
      exportAux (maskFilter m idx) (cols.map (maskFilter m))
        = maskFilter m (exportAux idx cols) := by
  induction m with
  | nil =>
    intro idx cols hlen hc
    cases idx with
    | nil => rfl
    | cons i is => simp at hlen
  | cons b bs ih =>
    intro idx cols hlen hc
    cases idx with
    | nil => simp at hlen
    | cons i is =>
      have hlen2 : is.length = bs.length := by simpa using hlen
      have hctails : ∀ c ∈ cols.map List.tail, c.length = bs.length := by
        intro c hcmem
        obtain ⟨c0, hc0mem, hc0⟩ := List.mem_map.mp hcmem
        have hl := hc c0 hc0mem
        rw [← hc0]
        cases c0 with
        | nil => simp at hl
        | cons a as => simpa using hl
      cases b
      · have hmapped : cols.map (maskFilter (false :: bs))
            = (cols.map List.tail).map (maskFilter bs) := by
          rw [List.map_map]
          apply List.map_congr_left
          intro c hcmem
          have hclen : c.length = bs.length + 1 := by simpa using hc c hcmem
          cases c with
          | nil => simp at hclen
          | cons c0 ct =>
            show maskFilter bs ct = maskFilter bs (c0 :: ct).tail
            rfl
        show exportAux (maskFilter bs is) (cols.map (maskFilter (false :: bs)))
            = maskFilter bs (exportAux is (cols.map List.tail))
        rw [hmapped]
        exact ih is (cols.map List.tail) hlen2 hctails
      · have hheads : (cols.map (maskFilter (true :: bs))).map (fun c => c.headD Cell.na)
            = cols.map (fun c => c.headD Cell.na) := by
          rw [List.map_map]
          apply List.map_congr_left
          intro c hcmem
          have hclen : c.length = bs.length + 1 := by simpa using hc c hcmem
          cases c with
          | nil => simp at hclen
          | cons c0 ct =>
            show (c0 :: maskFilter bs ct).headD Cell.na = (c0 :: ct).headD Cell.na
            rfl
        have htails : (cols.map (maskFilter (true :: bs))).map List.tail
            = (cols.map List.tail).map (maskFilter bs) := by
          rw [List.map_map, List.map_map]
          apply List.map_congr_left
          intro c hcmem
          have hclen : c.length = bs.length + 1 := by simpa using hc c hcmem
          cases c with
          | nil => simp at hclen
          | cons c0 ct =>
            show (c0 :: maskFilter bs ct).tail = maskFilter bs (c0 :: ct).tail
            rfl
        show (i, (cols.map (maskFilter (true :: bs))).map (fun c => c.headD Cell.na))
              :: exportAux (maskFilter bs is) ((cols.map (maskFilter (true :: bs))).map List.tail)
            = (i, cols.map (fun c => c.headD Cell.na))
              :: maskFilter bs (exportAux is (cols.map List.tail))
        rw [hheads, htails]
        rw [ih is (cols.map List.tail) hlen2 hctails]

theorem applyMask_index (t : Table) (m : List Bool) :
    (t.applyMask m).index = maskFilter m t.index := rfl

theorem applyMask_colsNamed (t : Table) (m : List Bool) (n : String) :
    (t.applyMask m).colsNamed n = (t.colsNamed n).map (fun p => (p.1, maskFilter m p.2)) := by
  show (t.cols.map (fun p => (p.1, maskFilter m p.2))).filter (fun p => p.1 == n) = _
  rw [List.filter_map]
  exact congrArg _ (List.filter_congr (fun p _ => rfl))

theorem applyMask_getColD (t : Table) (m : List Bool) (n : String) :
    (t.applyMask m).getColD n = maskFilter m (t.getColD n) := by
  unfold Table.getColD
  rw [applyMask_colsNamed]
  cases t.colsNamed n with
  | nil => exact (maskFilter_nil_right m).symm
  | cons p rest => rfl

theorem rectB_col_length {t : Table} (hrect : t.rectB = true) {p : String × List Cell}
    (hp : p ∈ t.cols) : p.2.length = t.index.length := by
  have h := List.all_eq_true.mp hrect p hp
  exact eq_of_beq h

theorem getColD_mem {t : Table} {vn : String} (hv : t.colsNamed vn ≠ []) :
    ∃ p ∈ t.cols, t.getColD vn = p.2 := by
  rcases hcn : t.colsNamed vn with _ | ⟨p, rest⟩
  · exact absurd hcn hv
  · refine ⟨p, ?_, by unfold Table.getColD; rw [hcn]⟩
    have hmem : p ∈ t.colsNamed vn := by
      rw [hcn]
      exact List.mem_cons_self _ _
    exact List.mem_of_mem_filter hmem

theorem keepRow_isSome {lo hi : ℚ} {c : Cell} (h : keepRow lo hi c = true) :
    c.toNum.isSome = true := by
  unfold keepRow at h
  cases hc : c.toNum with
  | none =>
    rw [hc] at h
    cases h
  | some q => simp [hc]

theorem keepRow_iff (lo hi : ℚ) (c : Cell) :
    keepRow lo hi c = true ↔
      ∃ q : ℚ, c.toNum = some (NumVal.fin q) ∧ lo ≤ q ∧ q ≤ hi := by
  unfold keepRow
  cases hc : c.toNum with
  | none => simp
  | some v =>
    cases v with
    | fin q => simp [NumVal.le]
    | pinf => simp [NumVal.le]
    | ninf => simp [NumVal.le]

theorem filtrado_eq_applyMask (t : Table) (vn : String) (lo hi : ℚ)
    (hrect : t.rectB = true) (hv : t.colsNamed vn ≠ []) :
    filtrado t vn lo hi = t.applyMask ((t.getColD vn).map (keepRow lo hi)) := by
  obtain ⟨p0, hp0, hgc⟩ := getColD_mem hv
  have hlen : (t.getColD vn).length = t.index.length := by
    rw [hgc]
    exact rectB_col_length hrect hp0
  show (t.applyMask ((t.getColD vn).map (keepRow lo hi))).applyMask
        (((t.applyMask ((t.getColD vn).map (keepRow lo hi))).getColD vn).map
          (fun c => c.toNum.isSome))
      = t.applyMask ((t.getColD vn).map (keepRow lo hi))
  have hgc1 : (t.applyMask ((t.getColD vn).map (keepRow lo hi))).getColD vn
      = maskFilter ((t.getColD vn).map (keepRow lo hi)) (t.getColD vn) :=
    applyMask_getColD t _ vn
  have hall : ∀ b ∈ ((t.applyMask ((t.getColD vn).map (keepRow lo hi))).getColD vn).map
      (fun c => c.toNum.isSome), b = true := by
    intro b hb
    obtain ⟨c, hcmem, hc⟩ := List.mem_map.mp hb
    rw [hgc1] at hcmem
    have hk := mem_maskFilter_self (keepRow lo hi) (t.getColD vn) c hcmem
    rw [← hc]
    exact keepRow_isSome hk
  have hm2len : (((t.applyMask ((t.getColD vn).map (keepRow lo hi))).getColD vn).map
      (fun c => c.toNum.isSome)).length
      = (t.applyMask ((t.getColD vn).map (keepRow lo hi))).index.length := by
    rw [List.length_map, hgc1, applyMask_index]
    exact maskFilter_length_eq _ _ _ hlen
  have hcols1 : ∀ q ∈ (t.applyMask ((t.getColD vn).map (keepRow lo hi))).cols,
      (q : String × List Cell).2.length
        = (t.applyMask ((t.getColD vn).map (keepRow lo hi))).index.length := by
    intro q hq
    have hqc : (t.applyMask ((t.getColD vn).map (keepRow lo hi))).cols
        = t.cols.map (fun p => (p.1, maskFilter ((t.getColD vn).map (keepRow lo hi)) p.2)) := rfl
    rw [hqc] at hq
    obtain ⟨q0, hq0mem, hq0⟩ := List.mem_map.mp hq
    rw [← hq0, applyMask_index]
    exact maskFilter_length_eq _ _ _ (rectB_col_length hrect hq0mem)
  have hidx2 : maskFilter
      (((t.applyMask ((t.getColD vn).map (keepRow lo hi))).getColD vn).map
        (fun c => c.toNum.isSome))
      (t.applyMask ((t.getColD vn).map (keepRow lo hi))).index
      = (t.applyMask ((t.getColD vn).map (keepRow lo hi))).index :=
    maskFilter_all_true hall _ hm2len.symm
  have hcolseq : (t.applyMask ((t.getColD vn).map (keepRow lo hi))).cols.map
      (fun p => (p.1, maskFilter
        (((t.applyMask ((t.getColD vn).map (keepRow lo hi))).getColD vn).map
          (fun c => c.toNum.isSome)) p.2))
      = (t.applyMask ((t.getColD vn).map (keepRow lo hi))).cols := by
    have hpt : ∀ q ∈ (t.applyMask ((t.getColD vn).map (keepRow lo hi))).cols,
        ((q : String × List Cell).1, maskFilter
          (((t.applyMask ((t.getColD vn).map (keepRow lo hi))).getColD vn).map
            (fun c => c.toNum.isSome)) q.2) = q := by
      intro q hq
      have hql : q.2.length
          = (((t.applyMask ((t.getColD vn).map (keepRow lo hi))).getColD vn).map
            (fun c => c.toNum.isSome)).length := by
        rw [hm2len]
        exact hcols1 q hq
      rw [maskFilter_all_true hall q.2 hql]
    calc (t.applyMask ((t.getColD vn).map (keepRow lo hi))).cols.map
          (fun p => (p.1, maskFilter
            (((t.applyMask ((t.getColD vn).map (keepRow lo hi))).getColD vn).map
              (fun c => c.toNum.isSome)) p.2))
        = (t.applyMask ((t.getColD vn).map (keepRow lo hi))).cols.map id :=
          List.map_congr_left hpt
      _ = _ := List.map_id _
  show (⟨maskFilter
        (((t.applyMask ((t.getColD vn).map (keepRow lo hi))).getColD vn).map
          (fun c => c.toNum.isSome))
        (t.applyMask ((t.getColD vn).map (keepRow lo hi))).index,
      (t.applyMask ((t.getColD vn).map (keepRow lo hi))).cols.map
        (fun p => (p.1, maskFilter
          (((t.applyMask ((t.getColD vn).map (keepRow lo hi))).getColD vn).map
            (fun c => c.toNum.isSome)) p.2))⟩ : Table)
      = t.applyMask ((t.getColD vn).map (keepRow lo hi))
  rw [hidx2, hcolseq]

theorem maskFilter_map {α β : Type} (g : α → β) (m : List Bool) :
    ∀ xs : List α, maskFilter m (xs.map g) = (maskFilter m xs).map g := by
  induction m with
  | nil =>
    intro xs
    rfl
  | cons b bs ih =>
    intro xs
    cases xs with
    | nil => rfl
    | cons x xs2 =>
      cases b
      · show maskFilter bs (xs2.map g) = (maskFilter bs xs2).map g
        exact ih xs2
      · show g x :: maskFilter bs (xs2.map g) = (x :: maskFilter bs xs2).map g
        rw [ih xs2]
        rfl

theorem processCol_err_of_present {t : Table} {col : String} {e : Err}
    (hne : t.colsNamed col ≠ []) (h : processCol t col = .error e) :
    e = .duplicateLabel col := by
  unfold processCol at h
  split at h
  · rename_i heq
    exact absurd heq hne
  · cases h
  · injection h with h2
    exact h2.symm

/-- Claim C1 counterexample: a well-formed upload whose rows are out of time
order is processed successfully, and the resulting table's index is NOT
sorted ascending — `set_index` never sorts. -/
theorem C1_counterexample :
    process fC1 = Except.ok tC1 ∧ timesSortedB tC1.index = false :=
  ⟨rfl, rfl⟩

/-- Claim C1 (amended): for every successfully processed upload, the
ValidatedTable's index is exactly the parsed time column of the upload in
its original row order; the pipeline performs no sort, so the table is
time-ascending only when the uploaded rows already were, and duplicate
timestamps trivially keep their relative order. -/
theorem C1_index_is_original_order (f : RawFrame) (t : Table)
    (h : process f = .ok t) : t.index = rawTimeIndex f := by
  obtain ⟨nm, tcs, htime, hall, hidx⟩ := (process_ok_spec h).time_col
  unfold rawTimeIndex
  rw [htime]
  exact hidx

/-- Claim C1 witness: the amended statement evaluated on a concrete
out-of-order upload. -/
theorem C1_index_is_original_order_witness :
    process fC1 = Except.ok tC1 ∧ tC1.index = rawTimeIndex fC1 :=
  ⟨rfl, C1_index_is_original_order fC1 tC1 rfl⟩

/-- Claim C2 counterexample: an upload whose headers `Time` and `time` both
alias to `_time`, with every timestamp parseable, still aborts — a third
failure case beyond the two the claim allows. -/
theorem C2_counterexample :
    ((renameFrame fC2).colsNamed "_time").length = 2
    ∧ (((renameFrame fC2).colsNamed "_time").all fun p => p.2.all fun c => c.toTime.isSome)
        = true
    ∧ establishTime (renameFrame fC2) = .error (.duplicateLabel "_time")
    ∧ process fC2 = .error (.duplicateLabel "_time") :=
  ⟨by decide, by decide, by decide, by decide⟩

/-- Claim C2 (amended): the time column establisher fails in exactly three
cases — no column resolves to `_time` (fatal stop), a single resolved time
column containing an unparseable value (time-parse abort), or more than one
column resolving to `_time` (generic abort) — and succeeds otherwise; every
failure aborts the whole run, so no table is produced. -/
theorem C2_time_establisher (f : RawFrame) :
    ((renameFrame f).colsNamed "_time" = [] → process f = .error .missingTimeColumn)
    ∧ (∀ nm cs, (renameFrame f).colsNamed "_time" = [(nm, cs)] →
        (((cs.all fun c => c.toTime.isSome) = true →
            ∃ t0, establishTime (renameFrame f) = .ok t0)
         ∧ ((cs.all fun c => c.toTime.isSome) = false →
            process f = .error .timeParseFailure)))
    ∧ (2 ≤ ((renameFrame f).colsNamed "_time").length →
        process f = .error (.duplicateLabel "_time"))
    ∧ (∀ e, process f = .error e → ¬ ∃ t, process f = .ok t) := by
  refine ⟨?_, ?_, ?_, ?_⟩
  · intro h
    apply process_err_of_establish
    unfold establishTime
    rw [h]
  · intro nm cs h
    constructor
    · intro hall
      have hp : parseTimeCol cs = .ok (cs.map (fun c => c.toTime.getD none)) := by
        unfold parseTimeCol
        rw [if_pos hall]
      refine ⟨⟨cs.map (fun c => c.toTime.getD none),
        (renameFrame f).cols.filter (fun p => p.1 != "_time")⟩, ?_⟩
      unfold establishTime
      rw [h]
      show (match parseTimeCol cs with
            | Except.ok idx =>
              Except.ok (⟨idx, (renameFrame f).cols.filter (fun p => p.1 != "_time")⟩ : Table)
            | Except.error e => Except.error e)
          = _
      rw [hp]
    · intro hfail
      have hp : parseTimeCol cs = .error .timeParseFailure := by
        unfold parseTimeCol
        rw [if_neg (by simp [hfail])]
      apply process_err_of_establish
      unfold establishTime
      rw [h]
      show (match parseTimeCol cs with
            | Except.ok idx =>
              Except.ok (⟨idx, (renameFrame f).cols.filter (fun p => p.1 != "_time")⟩ : Table)
            | Except.error e => Except.error e)
          = _
      rw [hp]
  · intro hlen
    apply process_err_of_establish
    unfold establishTime
    rcases hcn : (renameFrame f).colsNamed "_time" with _ | ⟨a, _ | ⟨b, rest⟩⟩
    · rw [hcn] at hlen
      simp at hlen
    · rw [hcn] at hlen
      simp at hlen
    · rfl
  · intro e he ht
    obtain ⟨t, ht⟩ := ht
    rw [he] at ht
    cases ht

/-- Claim C2 witness: the amended statement evaluated on a duplicate-alias
upload and on an upload without any time column. -/
theorem C2_time_establisher_witness :
    process fC2 = .error (.duplicateLabel "_time")
    ∧ process fC2w = .error .missingTimeColumn := by
  constructor
  · exact (C2_time_establisher fC2).2.2.1 (by decide)
  · exact (C2_time_establisher fC2w).1 (by decide)

/-- Claim C3 counterexample: with temperature absent and a humidity column
present but holding no numeric value, the backfilled temperature is NaN
(the mean of an all-NaN column), not the constant 25.0 the claim requires
for a present-but-empty humidity column. -/
theorem C3_counterexample :
    process fC3 = Except.ok tC3
    ∧ (renameFrame fC3).colsNamed "humidity" = [("humidity", [Cell.na])]
    ∧ ([Cell.na].filterMap Cell.toNum) = []
    ∧ tC3.getColD "temperature" = [Cell.na]
    ∧ Cell.na ≠ Cell.val (some (NumVal.fin 25)) none :=
  ⟨rfl, rfl, rfl, rfl, by decide⟩

/-- Claim C3 (amended): in every successful run, a missing value column is
backfilled with a full column of defaults of the same row count as the time
index: missing temperature gets the mean of the raw humidity column
whenever a humidity column is present — which is NaN when humidity holds no
numeric value — and the constant 25.0 only when humidity is absent entirely;
missing humidity gets the constant 50.0; missing valve_state gets the
constant 0. -/
theorem C3_backfill (f : RawFrame) (t : Table) (h : process f = .ok t) :
    ((renameFrame f).colsNamed "temperature" = [] →
      0 < t.nrows ∧
      (((renameFrame f).colsNamed "humidity" = [] ∧
          t.colsNamed "temperature"
            = [("temperature", List.replicate t.nrows (Cell.val (some (NumVal.fin 25)) none))]) ∨
       (∃ nm hcs m, (renameFrame f).colsNamed "humidity" = [(nm, hcs)] ∧
          rawMean hcs = .ok m ∧
          t.colsNamed "temperature"
            = [("temperature", List.replicate t.nrows (cellOfOpt m))])))
    ∧ ((renameFrame f).colsNamed "humidity" = [] →
        t.colsNamed "humidity"
          = [("humidity", List.replicate t.nrows (Cell.val (some (NumVal.fin 50)) none))])
    ∧ ((renameFrame f).colsNamed "valve_state" = [] →
        t.colsNamed "valve_state"
          = [("valve_state", List.replicate t.nrows (Cell.val (some (NumVal.fin 0)) none))]) := by
  have hs := process_ok_spec h
  exact ⟨hs.temp_absent, hs.hum_absent, hs.valve_absent⟩

/-- Claim C3 witness: an upload missing all three value columns gets
temperature 25.0, humidity 50.0 and valve_state 0, each broadcast over both
rows. -/
theorem C3_backfill_witness :
    process fC3w = Except.ok tC3w
    ∧ tC3w.colsNamed "temperature"
        = [("temperature", List.replicate tC3w.nrows (Cell.val (some (NumVal.fin 25)) none))]
    ∧ tC3w.colsNamed "humidity"
        = [("humidity", List.replicate tC3w.nrows (Cell.val (some (NumVal.fin 50)) none))]
    ∧ tC3w.colsNamed "valve_state"
        = [("valve_state", List.replicate tC3w.nrows (Cell.val (some (NumVal.fin 0)) none))]
    ∧ tC3w.nrows = 2 := by
  have h3 := C3_backfill fC3w tC3w rfl
  refine ⟨rfl, ?_, h3.2.1 rfl, h3.2.2 rfl, rfl⟩
  rcases (h3.1 rfl).2 with ⟨_, htemp⟩ | ⟨nm, hcs, m, habs, _, _⟩
  · exact htemp
  · have hnil : (renameFrame fC3w).colsNamed "humidity" = [] := rfl
    rw [hnil] at habs
    cases habs

/-- Claim C4 counterexample: an upload whose valve_state column holds the
text `inf`.  `pd.to_numeric` parses it to float infinity, `fillna(0)` does
not touch it, and `astype(int, errors='ignore')` at line 121 raises on the
non-finite value and hands the float column back un-cast — the run succeeds
but valve_state is not integer-typed. -/
theorem C4_counterexample :
    process fC4x = Except.ok tC4x
    ∧ tC4x.colsNamed "valve_state" = [("valve_state", [Cell.val (some NumVal.pinf) none])]
    ∧ (Cell.val (some NumVal.pinf) none).isFiniteNum = false
    ∧ ¬ ∃ k : ℤ, Cell.val (some NumVal.pinf) none
        = Cell.val (some (NumVal.fin (k : ℚ))) none := by
  refine ⟨rfl, rfl, rfl, ?_⟩
  rintro ⟨k, hk⟩
  injection hk with h1 h2
  injection h1 with h3
  exact NumVal.noConfusion h3

/-- Claim C4, corrected: after any successful run all four canonical fields
exist (the three value columns as single columns plus the time index);
temperature and humidity cells are each either a numeric value or an
explicit NaN, with a present column coerced pointwise so that unparseable
entries become NaN; valve_state contains no NaN, and it is integer-typed
provided every value after `fillna(0)` is finite — a non-finite entry such
as `inf` makes `astype(int, errors='ignore')` fail silently and the column
stays float. -/
theorem C4_schema_types (f : RawFrame) (t : Table) (h : process f = .ok t) :
    (∃ cs, t.colsNamed "temperature" = [("temperature", cs)]
       ∧ ∀ c ∈ cs, c = Cell.na ∨ ∃ q, c = Cell.val (some q) none)
    ∧ (∃ cs, t.colsNamed "humidity" = [("humidity", cs)]
       ∧ ∀ c ∈ cs, c = Cell.na ∨ ∃ q, c = Cell.val (some q) none)
    ∧ (∃ cs, t.colsNamed "valve_state" = [("valve_state", cs)]
       ∧ (∀ c ∈ cs, ∃ v, c = Cell.val (some v) none)
       ∧ ((∀ c ∈ cs, c.isFiniteNum = true) →
           ∀ c ∈ cs, ∃ k : ℤ, c = Cell.val (some (NumVal.fin (k : ℚ))) none))
    ∧ (∀ nm tcs, (renameFrame f).colsNamed "_time" = [(nm, tcs)] →
        t.index = tcs.map (fun c => c.toTime.getD none))
    ∧ (∀ nm cs, (renameFrame f).colsNamed "temperature" = [(nm, cs)] →
        t.colsNamed "temperature" = [("temperature", cs.map coerce1)])
    ∧ (∀ nm cs, (renameFrame f).colsNamed "humidity" = [(nm, cs)] →
        t.colsNamed "humidity" = [("humidity", cs.map coerce1)])
    ∧ (∀ c : Cell, c.toNum = none → coerce1 c = Cell.na) := by
  have hs := process_ok_spec h
  refine ⟨?_, ?_, ?_, ?_, hs.temp_present, hs.hum_present, ?_⟩
  · obtain ⟨cs, hcs⟩ := hs.temp_single
    refine ⟨cs, hcs, fun c hc => hs.temp_cells c ?_⟩
    rw [getColD_of_single hcs]
    exact hc
  · obtain ⟨cs, hcs⟩ := hs.hum_single
    refine ⟨cs, hcs, fun c hc => hs.hum_cells c ?_⟩
    rw [getColD_of_single hcs]
    exact hc
  · obtain ⟨cs, hcs⟩ := hs.valve_single
    refine ⟨cs, hcs, ?_, ?_⟩
    · intro c hc
      apply hs.valve_no_nan c
      rw [getColD_of_single hcs]
      exact hc
    · intro hall c hc
      refine hs.valve_int_of_finite ?_ c ?_
      · intro c2 hc2
        rw [getColD_of_single hcs] at hc2
        exact hall c2 hc2
      · rw [getColD_of_single hcs]
        exact hc
  · intro nm tcs htcs
    obtain ⟨nm2, tcs2, h1, h2, h3⟩ := hs.time_col
    rw [htcs] at h1
    injection h1 with hpair hnil
    injection hpair with hname hdata
    rw [h3, ← hdata]
  · intro c hc
    unfold coerce1
    rw [hc]

/-- Claim C4 witness: the invariant evaluated on an upload with one
unparseable temperature cell and blank humidity and valve cells. -/
theorem C4_schema_types_witness :
    process fC4 = Except.ok tC4
    ∧ tC4.colsNamed "temperature" = [("temperature", [ncell 20, badcell].map coerce1)]
    ∧ [ncell 20, badcell].map coerce1 = [Cell.val (some (NumVal.fin 20)) none, Cell.na] := by
  refine ⟨rfl, ?_, by decide⟩
  exact (C4_schema_types fC4 tC4 rfl).2.2.2.2.1 "temperature" [ncell 20, badcell] rfl

theorem process_err_of_temp {f : RawFrame} {t0 : Table} {e : Err}
    (h0 : establishTime (renameFrame f) = .ok t0)
    (h1 : processCol t0 "temperature" = .error e) : process f = .error e := by
  unfold process
  rw [h0]
  show (match processCol t0 "temperature" with
        | .error e => Except.error e
        | .ok t1 =>
          match processCol t1 "humidity" with
          | .error e => Except.error e
          | .ok t2 =>
            match processCol t2 "valve_state" with
            | .error e => Except.error e
            | .ok t3 => Except.ok (finalizeValve t3)) = Except.error e
  rw [h1]

/-- Claim C5 counterexample: humidity is present after alias resolution and
holds one value that fails numeric coercion; with temperature absent, that
value does not become a NaN cell — the whole run aborts, because the raw
humidity column is averaged before its coercion. -/
theorem C5_counterexample :
    (renameFrame fC5).colsNamed "humidity" = [("humidity", [badcell])]
    ∧ badcell.toNum = none
    ∧ process fC5 = .error .meanTypeError :=
  ⟨rfl, rfl, rfl⟩

/-- Claim C5 (amended): numeric coercion itself is per-value tolerant — in
every successful run each present value column is coerced pointwise with
every failing value becoming NaN for that cell only, and when a temperature
column is present no run can abort through the backfill's mean or its
warning; but when temperature is absent and humidity present, the raw
humidity column is averaged before coercion, so one unparseable humidity
value aborts the whole run. -/
theorem C5_coercion_policy (f : RawFrame) :
    (∀ t, process f = .ok t →
       (∀ nm cs, (renameFrame f).colsNamed "temperature" = [(nm, cs)] →
          t.getColD "temperature" = cs.map coerce1)
       ∧ (∀ nm cs, (renameFrame f).colsNamed "humidity" = [(nm, cs)] →
          t.getColD "humidity" = cs.map coerce1)
       ∧ (∀ nm cs, (renameFrame f).colsNamed "valve_state" = [(nm, cs)] →
          t.getColD "valve_state" = astypeIntCol cs)
       ∧ (∀ c : Cell, c.toNum = none → coerce1 c = Cell.na))
    ∧ ((renameFrame f).colsNamed "temperature" ≠ [] →
        process f ≠ .error .meanTypeError ∧ process f ≠ .error .emptyIloc)
    ∧ (∀ t0 nm hcs, (renameFrame f).colsNamed "temperature" = [] →
        (renameFrame f).colsNamed "humidity" = [(nm, hcs)] →
        hcs.any Cell.isBadText = true →
        establishTime (renameFrame f) = .ok t0 →
        process f = .error .meanTypeError) := by
  refine ⟨?_, ?_, ?_⟩
  · intro t h
    have hs := process_ok_spec h
    refine ⟨?_, ?_, ?_, ?_⟩
    · intro nm cs hg
      rw [getColD_of_single (hs.temp_present nm cs hg)]
    · intro nm cs hg
      rw [getColD_of_single (hs.hum_present nm cs hg)]
    · intro nm cs hg
      rw [getColD_of_single (hs.valve_present nm cs hg)]
    · intro c hc
      unfold coerce1
      rw [hc]
  · intro hne
    have key : ∀ e, process f = .error e →
        e = .missingTimeColumn ∨ e = .timeParseFailure ∨
        e = .duplicateLabel "_time" ∨ e = .duplicateLabel "temperature" ∨
        e = .duplicateLabel "humidity" ∨ e = .duplicateLabel "valve_state" := by
      intro e he
      rcases process_err_stages he with h0 | ⟨t0, h0, h1⟩
      · rcases establishTime_err_elim h0 with h | h | h
        · exact Or.inl h
        · exact Or.inr (Or.inl h)
        · exact Or.inr (Or.inr (Or.inl h))
      · obtain ⟨nm0, tcs, htime, hall, ht0⟩ := establishTime_ok_elim h0
        have hT0temp : t0.colsNamed "temperature"
            = (renameFrame f).colsNamed "temperature" := by
          rw [ht0]
          exact filter_ne_time_colsNamed _ _ _ (by decide)
        rcases h1 with h1 | ⟨t1, h1, h2⟩
        · have he2 : e = .duplicateLabel "temperature" := by
            apply processCol_err_of_present _ h1
            rw [hT0temp]
            exact hne
          exact Or.inr (Or.inr (Or.inr (Or.inl he2)))
        · rcases h2 with h2 | ⟨t2, h2, h3⟩
          · rcases processCol_err_elim h2 with h | ⟨habs, _⟩
            · exact Or.inr (Or.inr (Or.inr (Or.inr (Or.inl h))))
            · exact absurd habs (by decide)
          · rcases processCol_err_elim h3 with h | ⟨habs, _⟩
            · exact Or.inr (Or.inr (Or.inr (Or.inr (Or.inr h))))
            · exact absurd habs (by decide)
    constructor
    · intro hmean
      rcases key _ hmean with h | h | h | h | h | h <;> cases h
    · intro hiloc
      rcases key _ hiloc with h | h | h | h | h | h <;> cases h
  · intro t0 nm hcs htnil hhum hbad hest
    obtain ⟨nm0, tcs, htime, hall, ht0⟩ := establishTime_ok_elim hest
    have hT0temp : t0.colsNamed "temperature" = [] := by
      rw [ht0, filter_ne_time_colsNamed _ _ _ (by decide)]
      exact htnil
    have hT0hum : t0.colsNamed "humidity" = [(nm, hcs)] := by
      rw [ht0, filter_ne_time_colsNamed _ _ _ (by decide)]
      exact hhum
    apply process_err_of_temp hest
    rw [processTemp_absent hT0temp]
    exact tempBackfill_err_of_badhum hT0hum hbad

/-- Claim C5 witness: with temperature present, its unparseable first cell
becomes NaN for that cell only and the run does not abort. -/
theorem C5_coercion_policy_witness :
    process fC5w = Except.ok tC5w
    ∧ tC5w.getColD "temperature" = [badcell, ncell 21].map coerce1
    ∧ [badcell, ncell 21].map coerce1 = [Cell.na, Cell.val (some (NumVal.fin 21)) none]
    ∧ process fC5w ≠ Except.error Err.meanTypeError := by
  have h5 := C5_coercion_policy fC5w
  refine ⟨rfl, ?_, by decide, ?_⟩
  · exact (h5.1 tC5w rfl).1 "temperature" [badcell, ncell 21] rfl
  · exact (h5.2.1 (by decide)).1

/-- Claim C6 counterexample: the export of the filter view over a
successfully processed upload whose rows were out of time order is not
time-ascending — it preserves the table's (unsorted) row order. -/
theorem C6_counterexample :
    process fC6 = Except.ok tC6
    ∧ (Table.exportRows (filtrado tC6 "temperature" 0 100)).map Prod.fst = [some 2, some 1]
    ∧ timesSortedB [some 2, some 1] = false :=
  ⟨rfl, rfl, rfl⟩

/-- Claim C6 (amended): for every rectangular table and selected column, the
export of the filtered view consists of exactly the rows whose value in the
selected column is non-missing and inside the inclusive range, in the
table's own relative row order (time-ascending only when the table is),
with the time index materialized as the first component of every exported
row. -/
theorem C6_filter_export (t : Table) (vn : String) (lo hi : ℚ)
    (hrect : t.rectB = true) (hv : t.colsNamed vn ≠ []) :
    Table.exportRows (filtrado t vn lo hi)
        = maskFilter ((t.getColD vn).map (keepRow lo hi)) t.exportRows
    ∧ (Table.exportRows (filtrado t vn lo hi)).map Prod.fst
        = maskFilter ((t.getColD vn).map (keepRow lo hi)) t.index
    ∧ (∀ c : Cell, keepRow lo hi c = true ↔
        ∃ q : ℚ, c.toNum = some (NumVal.fin q) ∧ lo ≤ q ∧ q ≤ hi) := by
  obtain ⟨p0, hp0, hgc⟩ := getColD_mem hv
  have hlen : t.index.length = ((t.getColD vn).map (keepRow lo hi)).length := by
    rw [List.length_map, hgc]
    exact (rectB_col_length hrect hp0).symm
  have hcols : ∀ c ∈ t.cols.map (fun p => p.2),
      c.length = ((t.getColD vn).map (keepRow lo hi)).length := by
    intro c hcm
    obtain ⟨q, hq, hq2⟩ := List.mem_map.mp hcm
    rw [← hq2, ← hlen]
    exact rectB_col_length hrect hq
  have hmain : Table.exportRows (filtrado t vn lo hi)
      = maskFilter ((t.getColD vn).map (keepRow lo hi)) t.exportRows := by
    rw [filtrado_eq_applyMask t vn lo hi hrect hv]
    unfold Table.exportRows
    have hcolsmap : (t.applyMask ((t.getColD vn).map (keepRow lo hi))).cols.map
          (fun p => p.2)
        = (t.cols.map (fun p => p.2)).map
            (maskFilter ((t.getColD vn).map (keepRow lo hi))) := by
      show (t.cols.map (fun p =>
          (p.1, maskFilter ((t.getColD vn).map (keepRow lo hi)) p.2))).map (fun p => p.2) = _
      rw [List.map_map, List.map_map]
      rfl
    rw [applyMask_index, hcolsmap]
    exact exportAux_mask _ t.index (t.cols.map (fun p => p.2)) hlen hcols
  refine ⟨hmain, ?_, keepRow_iff lo hi⟩
  rw [hmain]
  unfold Table.exportRows
  rw [← maskFilter_map, exportAux_fst]

/-- Claim C6 witness: the amended contract evaluated on a concrete sorted
table with range 20 to 21 on temperature. -/
theorem C6_filter_export_witness :
    process fC6w = Except.ok tC6w
    ∧ tC6w.rectB = true
    ∧ tC6w.colsNamed "temperature" ≠ []
    ∧ Table.exportRows (filtrado tC6w "temperature" 20 21)
        = maskFilter ((tC6w.getColD "temperature").map (keepRow 20 21)) tC6w.exportRows := by
  refine ⟨rfl, rfl, by decide, ?_⟩
  exact (C6_filter_export tC6w "temperature" 20 21 rfl (by decide)).1

/-- Claim C7 counterexample: a fully well-formed upload is processed
successfully even though after backfill the canonical time column is absent
from the table's columns (it lives in the index) — no IncompleteSchema
re-check or abort exists in the code. -/
theorem C7_counterexample :
    process fC7 = Except.ok tC7 ∧ tC7.colsNamed "_time" = [] :=
  ⟨rfl, rfl⟩

/-- Claim C7 (amended): the code performs no schema re-check (the
required_columns list is never consulted), and none is needed: in every
successful run the three value columns are each present exactly once, the
time field persists as the index built from the resolved time column, and
`_time` itself is no longer among the columns; every failing run aborts
before rendering, so no partial table is ever surfaced. -/
theorem C7_schema_after_backfill (f : RawFrame) (t : Table) (h : process f = .ok t) :
    (∃ cs, t.colsNamed "temperature" = [("temperature", cs)])
    ∧ (∃ cs, t.colsNamed "humidity" = [("humidity", cs)])
    ∧ (∃ cs, t.colsNamed "valve_state" = [("valve_state", cs)])
    ∧ t.colsNamed "_time" = []
    ∧ ∃ nm tcs, (renameFrame f).colsNamed "_time" = [(nm, tcs)]
        ∧ t.index = tcs.map (fun c => c.toTime.getD none) := by
  have hs := process_ok_spec h
  obtain ⟨nm, tcs, h1, h2, h3⟩ := hs.time_col
  exact ⟨hs.temp_single, hs.hum_single, hs.valve_single, hs.no_time_col, nm, tcs, h1, h3⟩

/-- Claim C7 witness: the amended statement evaluated on a concrete
well-formed upload. -/
theorem C7_schema_after_backfill_witness :
    process fC7 = Except.ok tC7
    ∧ tC7.colsNamed "_time" = []
    ∧ ∃ cs, tC7.colsNamed "temperature" = [("temperature", cs)] := by
  have h7 := C7_schema_after_backfill fC7 tC7 rfl
  exact ⟨rfl, h7.2.2.2.1, h7.1⟩

/-- Claim C8 counterexample: with headers `Time` and `time` in one file, the
rename keeps BOTH columns under the label `_time` — the later column does
not overwrite the earlier one — and processing subsequently aborts. -/
theorem C8_counterexample :
    (renameFrame fC8).cols = [("_time", [tcell 1]), ("_time", [tcell 2])]
    ∧ ((renameFrame fC8).colsNamed "_time").length = 2
    ∧ process fC8 = .error (.duplicateLabel "_time") :=
  ⟨rfl, rfl, rfl⟩

/-- Claim C8 (amended): the alias resolver is total and never fails; it
relabels columns without merging or dropping anything (column count and all
column data are preserved), so two originals aliasing to one canonical name
yield duplicate labels rather than a last-write-wins overwrite; a
duplicated `_time` label then aborts the pipeline at time parsing. -/
theorem C8_rename_no_overwrite (f : RawFrame) :
    (renameFrame f).cols.map Prod.snd = f.cols.map Prod.snd
    ∧ (renameFrame f).cols.length = f.cols.length
    ∧ (2 ≤ ((renameFrame f).colsNamed "_time").length →
        process f = .error (.duplicateLabel "_time")) := by
  refine ⟨?_, ?_, ?_⟩
  · show (f.cols.map (fun p => (applyRename p.1, p.2))).map Prod.snd = _
    rw [List.map_map]
    rfl
  · show (f.cols.map (fun p => (applyRename p.1, p.2))).length = _
    rw [List.length_map]
  · intro hlen
    apply process_err_of_establish
    unfold establishTime
    rcases hcn : (renameFrame f).colsNamed "_time" with _ | ⟨a, _ | ⟨b, rest⟩⟩
    · rw [hcn] at hlen
      simp at hlen
    · rw [hcn] at hlen
      simp at hlen
    · rfl

/-- Claim C8 witness: the amended statement evaluated on the duplicate-alias
upload. -/
theorem C8_rename_no_overwrite_witness :
    (renameFrame fC8).cols.map Prod.snd = fC8.cols.map Prod.snd
    ∧ process fC8 = .error (.duplicateLabel "_time") := by
  have h8 := C8_rename_no_overwrite fC8
  exact ⟨h8.1, h8.2.2 (by decide)⟩

/-- Claim C9 counterexample: a ValidatedTable whose valve_state column is
constant at 5 (coercion never clamps to 0/1) gets the widened range
[-0.1, 1.1], but its constant value 5 lies outside that range, so it is NOT
selectable. -/
theorem C9_counterexample :
    process fC9 = Except.ok tC9
    ∧ dropnaVals (tC9.getColD "valve_state") = [NumVal.fin 5, NumVal.fin 5]
    ∧ sliderRange tC9 "valve_state" = (NumVal.fin (-1/10), NumVal.fin (11/10))
    ∧ ¬ ((5 : ℚ) ≤ 11/10) := by
  refine ⟨rfl, rfl, rfl, by norm_num⟩

/-- Claim C9 (amended): whenever the valve_state column is constant (its
non-missing minimum equals its maximum, at least one value present), the
range filter does not fail: the slider bounds are widened to exactly
[-0.1, 1.1]; the constant value is then selectable precisely when it lies
in [-0.1, 1.1] — always the case for valve states 0 and 1, but not for
out-of-range constants, which coercion does not clamp away. -/
theorem C9_constant_valve (t : Table)
    (hne : dropnaVals (t.getColD "valve_state") ≠ [])
    (hconst : qMinList (dropnaVals (t.getColD "valve_state"))
        = qMaxList (dropnaVals (t.getColD "valve_state"))) :
    sliderRange t "valve_state" = (NumVal.fin (-1/10), NumVal.fin (11/10))
    ∧ ∀ (c : Cell) (q : ℚ), c.toNum = some (NumVal.fin q) →
        (keepRow (-1/10) (11/10) c = true ↔ (-1/10 ≤ q ∧ q ≤ 11/10)) := by
  constructor
  · rcases hl : dropnaVals (t.getColD "valve_state") with _ | ⟨x, xs⟩
    · exact absurd hl hne
    · rw [hl] at hconst
      simp only [sliderRange]
      rw [hl]
      rw [if_neg (by simp), if_pos hconst, if_pos (by decide)]
  · intro c q hq
    unfold keepRow
    rw [hq]
    simp [NumVal.le]

/-- Claim C9 witness: the amended statement evaluated on a table whose
valve_state is constant at 0, whose value is selectable inside the widened
range. -/
theorem C9_constant_valve_witness :
    process fC9w = Except.ok tC9w
    ∧ dropnaVals (tC9w.getColD "valve_state") = [NumVal.fin 0, NumVal.fin 0]
    ∧ sliderRange tC9w "valve_state" = (NumVal.fin (-1/10), NumVal.fin (11/10))
    ∧ keepRow (-1/10) (11/10) (Cell.val (some (NumVal.fin 0)) none) = true := by
  refine ⟨rfl, rfl, (C9_constant_valve tC9w (by decide) (by decide)).1, ?_⟩
  have h9 := (C9_constant_valve tC9w (by decide) (by decide)).2 (Cell.val (some (NumVal.fin 0)) none) 0 rfl
  rw [h9]
  norm_num

/-- Claim C10: when the selected column holds only missing values, the
filter stage does not fail: the slider bounds default to [0.0, 1.0], the
filtered table is empty (zero rows, empty export body), because a NaN cell
compares false against any range bound and is excluded. -/
theorem C10_all_missing_column (t : Table) (vn : String)
    (h : (t.getColD vn).all (fun c => c.toNum.isNone) = true) :
    sliderRange t vn = (NumVal.fin 0, NumVal.fin 1)
    ∧ (∀ lo hi : ℚ, (filtrado t vn lo hi).nrows = 0
        ∧ Table.exportRows (filtrado t vn lo hi) = [])
    ∧ (∀ lo hi : ℚ, keepRow lo hi Cell.na = false) := by
  have hvd : dropnaVals (t.getColD vn) = [] := by
    unfold dropnaVals
    rw [List.filterMap_eq_nil_iff]
    intro c hc
    exact Option.isNone_iff_eq_none.mp (List.all_eq_true.mp h c hc)
  have hmask : ∀ lo hi : ℚ, ∀ b ∈ (t.getColD vn).map (keepRow lo hi), b = false := by
    intro lo hi b hb
    obtain ⟨c, hc, hcb⟩ := List.mem_map.mp hb
    have hnone : c.toNum = none :=
      Option.isNone_iff_eq_none.mp (List.all_eq_true.mp h c hc)
    rw [← hcb]
    unfold keepRow
    rw [hnone]
  have hidx : ∀ lo hi : ℚ, (filtrado t vn lo hi).index = [] := by
    intro lo hi
    show maskFilter _ (maskFilter ((t.getColD vn).map (keepRow lo hi)) t.index) = []
    rw [maskFilter_all_false (hmask lo hi) t.index]
    exact maskFilter_nil_right _
  refine ⟨?_, ?_, ?_⟩
  · simp only [sliderRange]
    rw [hvd]
    rfl
  · intro lo hi
    constructor
    · show (filtrado t vn lo hi).index.length = 0
      rw [hidx lo hi]
      rfl
    · unfold Table.exportRows
      rw [hidx lo hi]
      rfl
  · intro lo hi
    rfl

/-- Claim C10 witness: the statement evaluated on a processed upload whose
humidity column is entirely blank. -/
theorem C10_all_missing_column_witness :
    process fC10 = Except.ok tC10
    ∧ (tC10.getColD "humidity").all (fun c => c.toNum.isNone) = true
    ∧ sliderRange tC10 "humidity" = (NumVal.fin 0, NumVal.fin 1)
    ∧ (filtrado tC10 "humidity" 0 1).nrows = 0 := by
  refine ⟨rfl, rfl, (C10_all_missing_column tC10 "humidity" rfl).1, ?_⟩
  exact ((C10_all_missing_column tC10 "humidity" rfl).2.1 0 1).1
